import Mathlib

/-!
Verification of the experimental Vulkan synchronization validation layer
(layers/sync.cpp, layers/sync.h, layers/sync_validate.cpp,
layers/sync_to_string.cpp).

The development shallowly embeds the layer's shadow-state data model and the
operations the claims are about:

* the debug-report macros (`_LOG_GENERIC` and the `LOG_*` wrappers),
* `CommandId` and its `operator<`,
* the per-device shadow store (`sync_device` and its handle-keyed maps),
* command recording (`get_sync_command_buffer`, `vkCmdDraw`, ...),
* pool/buffer lifecycle (`vkDestroyCommandPool`, `vkResetCommandBuffer`, ...),
* `vkUpdateDescriptorSets`,
* `vkQueueSubmit` and `SyncValidator::submitCmdBuffer`
  (the sync_validate.cpp revision),
* and a model of the barrier/reachability checker that sync.h declares
  (`SyncValidator::findPath`, `SyncEdgeSet`) but whose body is absent from
  the source tree; that part is modelled from the spec.

Machine integers: the layer only copies, compares and increments its
`uint64_t`/`uint32_t` fields (no arithmetic that can overflow in any
reachable execution modelled here), so they are embedded as `Nat`.
Opaque Vulkan handles are embedded as `Nat` as well.
-/

/- ### Debug reporting

`_LOG_GENERIC(level, ...)` in sync.cpp and sync_validate.cpp expands to
`log_msg(report_data, VK_DEBUG_REPORT_DEBUG_BIT_EXT, ...)`: the `level`
macro argument is ignored and every report is passed to the callback with
the DEBUG severity bit.  We record for each issued report both the nominal
severity (which `LOG_*` wrapper was used) and the severity actually passed
to `log_msg`.  The diagnostics sink is modelled as a function from the
index of the report (in issue order) to the boolean the layer gets back
from `log_msg`. -/

inductive DbgLevel
| info
| warn
| perf
| error
| debug
deriving DecidableEq, Repr

structure Report where
  nominal : DbgLevel
  passed : DbgLevel
  response : Bool
deriving DecidableEq, Repr

/-- The diagnostics sink: response of `log_msg` for the n-th report. -/
def Sink : Type := Nat → Bool

/-- Trace of reports issued so far (in order). -/
structure LogSt where
  trace : List Report
deriving DecidableEq, Repr

def LogSt.empty : LogSt := ⟨[]⟩

/-- `_LOG_GENERIC(level, ...)`: issues one report.  Faithful to the source,
the severity passed to `log_msg` is always `DEBUG`, whatever the nominal
`level` argument of the macro was. -/
def logGeneric (nominal : DbgLevel) (sink : Sink) (st : LogSt) : Bool × LogSt :=
  let resp := sink st.trace.length
  (resp, ⟨st.trace ++ [⟨nominal, DbgLevel.debug, resp⟩]⟩)

def logInfo (sink : Sink) (st : LogSt) : Bool × LogSt := logGeneric DbgLevel.info sink st
def logWarn (sink : Sink) (st : LogSt) : Bool × LogSt := logGeneric DbgLevel.warn sink st
def logError (sink : Sink) (st : LogSt) : Bool × LogSt := logGeneric DbgLevel.error sink st
def logDebug (sink : Sink) (st : LogSt) : Bool × LogSt := logGeneric DbgLevel.debug sink st

/- ### CommandId (sync.h 733-743, operator< from sync_to_string.cpp 638-657)

`CMP(a, b)` expands to: if a < b return true; if b < a return false;
otherwise fall through to the next field, i.e. lexicographic comparison
on (queueId, subpassId, sequenceId). -/

structure CommandId where
  queueId : Nat
  subpassId : Nat
  sequenceId : Nat
deriving DecidableEq, Repr

def CommandId.SUBPASS_NONE : Nat := 2 ^ 64 - 1

def CommandId.lt (x c : CommandId) : Bool :=
  if x.queueId < c.queueId then true
  else if c.queueId < x.queueId then false
  else if x.subpassId < c.subpassId then true
  else if c.subpassId < x.subpassId then false
  else if x.sequenceId < c.sequenceId then true
  else if c.sequenceId < x.sequenceId then false
  else false

/-- C5, irreflexivity part (helper). -/
theorem CommandId.lt_irrefl (x : CommandId) : CommandId.lt x x = false := by
  simp [CommandId.lt]

/-- Unfolding of the lexicographic comparison into a proposition. -/
theorem CommandId.lt_iff (x y : CommandId) :
    CommandId.lt x y = true ↔
      x.queueId < y.queueId ∨
      (x.queueId = y.queueId ∧ (x.subpassId < y.subpassId ∨
        (x.subpassId = y.subpassId ∧ x.sequenceId < y.sequenceId))) := by
  unfold CommandId.lt
  split_ifs <;> simp <;> omega

theorem CommandId.lt_trans_aux {x y z : CommandId}
    (hxy : CommandId.lt x y = true) (hyz : CommandId.lt y z = true) :
    CommandId.lt x z = true := by
  rw [CommandId.lt_iff] at hxy hyz ⊢
  omega

theorem CommandId.lt_total {x y : CommandId} (h : x ≠ y) :
    CommandId.lt x y = true ∨ CommandId.lt y x = true := by
  unfold CommandId.lt
  rcases Nat.lt_trichotomy x.queueId y.queueId with h1 | h1 | h1
  · left; simp [h1]
  · rcases Nat.lt_trichotomy x.subpassId y.subpassId with h3 | h3 | h3
    · left; simp [h1, h3]
    · rcases Nat.lt_trichotomy x.sequenceId y.sequenceId with h5 | h5 | h5
      · left; simp [h1, h3, h5]
      · exact absurd (by cases x; cases y; simp_all) h
      · right; simp [h1, h3, h5, Nat.lt_asymm h5]
    · right; simp [h1, h3, Nat.lt_asymm h3]
  · right; simp [h1, Nat.lt_asymm h1]

/-- C5 counterexample: the claim states that two CommandIds that differ in
queueId (or subpassId) are incomparable (neither x < y nor y < x).  The
source comparison is plainly lexicographic, so ⟨0,0,0⟩ < ⟨1,0,0⟩ holds even
though the two differ in queueId: the "incomparable" conjunct of the claim
is false at this input. -/
theorem commandId_incomparability_fails :
    (CommandId.mk 0 0 0).queueId ≠ (CommandId.mk 1 0 0).queueId ∧
    ¬ (CommandId.lt (CommandId.mk 0 0 0) (CommandId.mk 1 0 0) = false ∧
       CommandId.lt (CommandId.mk 1 0 0) (CommandId.mk 0 0 0) = false) := by
  refine ⟨by decide, by decide⟩

/-- C5 (amended): `CommandId::operator<` is a strict TOTAL order
(lexicographic on queueId, subpassId, sequenceId): it is irreflexive and
transitive (so in particular a strict weak order), two CommandIds with
equal queueId and subpassId but different sequenceId are strictly ordered,
and — contrary to the original claim — any two distinct CommandIds are
comparable, including those differing in queueId or subpassId. -/
theorem commandId_lt_strict_total_order :
    (∀ x : CommandId, CommandId.lt x x = false) ∧
    (∀ x y z : CommandId,
       CommandId.lt x y = true → CommandId.lt y z = true →
         CommandId.lt x z = true) ∧
    (∀ x y : CommandId,
       x.queueId = y.queueId → x.subpassId = y.subpassId →
         x.sequenceId ≠ y.sequenceId →
           CommandId.lt x y = true ∨ CommandId.lt y x = true) ∧
    (∀ x y : CommandId, x ≠ y →
       CommandId.lt x y = true ∨ CommandId.lt y x = true) := by
  refine ⟨CommandId.lt_irrefl, ?_, ?_, ?_⟩
  · intro x y z hxy hyz
    exact CommandId.lt_trans_aux hxy hyz
  · intro x y hq hs hseq
    apply CommandId.lt_total
    intro hEq
    exact hseq (by rw [hEq])
  · intro x y h
    exact CommandId.lt_total h

/-- C5 witness: the amended theorem applied at concrete CommandIds. -/
theorem commandId_lt_strict_total_order_witness :
    CommandId.lt (CommandId.mk 2 5 1) (CommandId.mk 2 5 1) = false ∧
    CommandId.lt (CommandId.mk 0 0 1) (CommandId.mk 0 0 9) = true ∧
    (CommandId.lt (CommandId.mk 3 1 0) (CommandId.mk 3 1 7) = true ∨
     CommandId.lt (CommandId.mk 3 1 7) (CommandId.mk 3 1 0) = true) ∧
    (CommandId.lt (CommandId.mk 0 2 0) (CommandId.mk 1 0 0) = true ∨
     CommandId.lt (CommandId.mk 1 0 0) (CommandId.mk 0 2 0) = true) :=
  ⟨commandId_lt_strict_total_order.1 (CommandId.mk 2 5 1),
   commandId_lt_strict_total_order.2.1 (CommandId.mk 0 0 1) (CommandId.mk 0 0 5)
     (CommandId.mk 0 0 9) (by decide) (by decide),
   commandId_lt_strict_total_order.2.2.1 (CommandId.mk 3 1 0) (CommandId.mk 3 1 7)
     (by decide) (by decide) (by decide),
   commandId_lt_strict_total_order.2.2.2 (CommandId.mk 0 2 0) (CommandId.mk 1 0 0)
     (by decide)⟩

/- ### Handle-keyed shadow maps

The source keeps its shadow records in std::map keyed by the (opaque)
Vulkan handle.  We embed those maps as association lists keyed by `Nat`.
All states constructed by the embedded operations keep keys unique, so
lookup/erase/overwrite on the association list agree with std::map
find/erase/operator[]. -/

abbrev MapL (α : Type) : Type := List (Nat × α)

def lookupM {α : Type} (m : MapL α) (k : Nat) : Option α :=
  match m with
  | [] => none
  | p :: rest => if p.1 = k then some p.2 else lookupM rest k

def eraseM {α : Type} (m : MapL α) (k : Nat) : MapL α :=
  match m with
  | [] => []
  | p :: rest => if p.1 = k then eraseM rest k else p :: eraseM rest k

def setM {α : Type} (m : MapL α) (k : Nat) (v : α) : MapL α :=
  m.map (fun p => if p.1 = k then (k, v) else p)

def insertM {α : Type} (m : MapL α) (k : Nat) (v : α) : MapL α :=
  match lookupM m k with
  | some _ => setM m k v
  | none => m ++ [(k, v)]

theorem lookupM_eraseM_self {α : Type} (m : MapL α) (k : Nat) :
    lookupM (eraseM m k) k = none := by
  induction m with
  | nil => rfl
  | cons p rest ih =>
    by_cases h : p.1 = k <;> simp [eraseM, lookupM, h, ih]

theorem lookupM_eraseM_ne {α : Type} (m : MapL α) {k q : Nat} (h : q ≠ k) :
    lookupM (eraseM m k) q = lookupM m q := by
  induction m with
  | nil => rfl
  | cons p rest ih =>
    by_cases hp : p.1 = k
    · have hpq : p.1 ≠ q := by rw [hp]; exact fun hq => h hq.symm
      simp [eraseM, lookupM, hp, hpq, Ne.symm h, ih]
    · by_cases hq : p.1 = q <;> simp [eraseM, lookupM, hp, hq, h, ih]

theorem lookupM_setM_self {α : Type} (m : MapL α) (k : Nat) (v : α) :
    lookupM (setM m k v) k = (lookupM m k).map (fun _ => v) := by
  induction m with
  | nil => rfl
  | cons p rest ih =>
    by_cases h : p.1 = k <;> simp [setM, lookupM, h] at ih ⊢ <;> exact ih

theorem lookupM_setM_ne {α : Type} (m : MapL α) {k q : Nat} (v : α) (h : q ≠ k) :
    lookupM (setM m k v) q = lookupM m q := by
  induction m with
  | nil => rfl
  | cons p rest ih =>
    simp only [setM, List.map] at ih ⊢
    by_cases hp : p.1 = k
    · have hkq : k ≠ q := fun hq => h hq.symm
      simp [lookupM, hp, hkq, ih]
    · by_cases hq : p.1 = q <;> simp [lookupM, hp, hq, h, ih]

theorem lookupM_foldl_eraseM {α : Type} (l : List Nat) (m : MapL α) (k : Nat) :
    lookupM (l.foldl (fun acc cb => eraseM acc cb) m) k =
      if k ∈ l then none else lookupM m k := by
  induction l generalizing m with
  | nil => simp
  | cons c rest ih =>
    simp only [List.foldl, List.mem_cons]
    rw [ih]
    by_cases hk : k ∈ rest
    · simp [hk]
    · by_cases hc : k = c
      · simp [hk, hc, lookupM_eraseM_self]
      · simp [hk, hc, lookupM_eraseM_ne _ hc]

/- ### Shadow record types (sync.h) -/

inductive VkPipelineBindPoint
| graphics
| compute
| other
deriving DecidableEq, Repr

inductive VkCommandBufferLevel
| primary
| secondary
deriving DecidableEq, Repr

inductive VkDescriptorType
| sampler
| combinedImageSampler
| sampledImage
| storageImage
| uniformTexelBuffer
| storageTexelBuffer
| uniformBuffer
| storageBuffer
| uniformBufferDynamic
| storageBufferDynamic
| inputAttachment
| invalidType
deriving DecidableEq, Repr

structure VkDescriptorImageInfo where
  sampler : Nat
  imageView : Nat
  imageLayout : Nat
deriving DecidableEq, Repr

structure VkDescriptorBufferInfo where
  buffer : Nat
  offset : Nat
  range : Nat
deriving DecidableEq, Repr

structure VkImageSubresourceRange where
  aspectMask : Nat
  baseMipLevel : Nat
  levelCount : Nat
  baseArrayLayer : Nat
  layerCount : Nat
deriving DecidableEq, Repr

/-- The recorded-command class hierarchy of sync.h as a closed sum.
Payload fields mirror the constructor arguments of the corresponding
`sync_cmd_*` class; data that the embedded operations never inspect
(viewports, scissors, copy regions, barrier payload lists, clear values)
is carried as opaque `Nat`s. -/
inductive SyncCmd
| bind_pipeline (pipelineBindPoint : VkPipelineBindPoint) (pipeline : Nat)
| set_viewport (firstViewport : Nat) (viewports : List Nat)
| set_scissor (firstScissor : Nat) (scissors : List Nat)
| bind_descriptor_sets (pipelineBindPoint : VkPipelineBindPoint) (layout : Nat)
    (firstSet : Nat) (descriptorSets : List Nat) (dynamicOffsets : List Nat)
| bind_vertex_buffers (firstBinding : Nat) (buffers : List Nat) (offsets : List Nat)
| draw (vertexCount instanceCount firstVertex firstInstance : Nat)
| draw_indexed (indexCount instanceCount firstIndex : Nat) (vertexOffset : Int)
    (firstInstance : Nat)
| copy_image (srcImage srcImageLayout dstImage dstImageLayout : Nat)
    (regions : List Nat)
| pipeline_barrier (srcStageMask dstStageMask dependencyFlags : Nat)
    (memoryBarriers : List Nat) (bufferMemoryBarriers : List Nat)
    (imageMemoryBarriers : List Nat)
| begin_render_pass (renderPass framebuffer : Nat) (clearValues : List Nat)
    (contents : Nat)
| next_subpass (contents : Nat)
| end_render_pass
deriving DecidableEq, Repr

/-- `sync_cmd_base::is_draw` (overridden by draw and draw_indexed). -/
def SyncCmd.is_draw : SyncCmd → Bool
  | SyncCmd.draw _ _ _ _ => true
  | SyncCmd.draw_indexed _ _ _ _ _ => true
  | _ => false

/-- `sync_cmd_base::as_bind_pipeline` (pipelineBindPoint, pipeline). -/
def SyncCmd.as_bind_pipeline : SyncCmd → Option (VkPipelineBindPoint × Nat)
  | SyncCmd.bind_pipeline p pl => some (p, pl)
  | _ => none

/-- `sync_cmd_base::as_bind_descriptor_sets`
(pipelineBindPoint, layout, firstSet, descriptorSets). -/
def SyncCmd.as_bind_descriptor_sets :
    SyncCmd → Option (VkPipelineBindPoint × Nat × Nat × List Nat)
  | SyncCmd.bind_descriptor_sets p l f s _ => some (p, l, f, s)
  | _ => none

inductive sync_command_buffer_state
| INITIAL
| RECORDING
| EXECUTABLE
deriving DecidableEq, Repr

structure sync_command_buffer where
  command_buffer : Nat
  command_pool : Nat
  level : VkCommandBufferLevel
  state : sync_command_buffer_state
  flags : Nat
  renderPass : Nat
  subpass : Nat
  framebuffer : Nat
  occlusionQueryEnable : Bool
  queryFlags : Nat
  pipelineStatistics : Nat
  commands : List SyncCmd
deriving DecidableEq, Repr

/-- `sync_command_buffer::reset()` (sync.cpp 2597-2611). -/
def sync_command_buffer.reset (b : sync_command_buffer) : sync_command_buffer :=
  { b with
    state := sync_command_buffer_state.INITIAL
    flags := 0
    renderPass := 0
    subpass := 0
    framebuffer := 0
    occlusionQueryEnable := false
    queryFlags := 0
    pipelineStatistics := 0
    commands := [] }

structure sync_command_pool where
  command_pool : Nat
  command_buffers : List Nat
deriving DecidableEq, Repr

structure sync_descriptor_set_descriptor where
  valid : Bool
  imageInfo : VkDescriptorImageInfo
  bufferInfo : VkDescriptorBufferInfo
  bufferView : Nat
deriving DecidableEq, Repr

structure sync_descriptor_set_descriptor_array where
  descriptorType : VkDescriptorType
  descriptors : List sync_descriptor_set_descriptor
deriving DecidableEq, Repr

structure sync_descriptor_set where
  descriptor_set : Nat
  descriptor_pool : Nat
  setLayout : Nat
  bindings : MapL sync_descriptor_set_descriptor_array
deriving DecidableEq, Repr

structure sync_descriptor_pool where
  descriptor_pool : Nat
  descriptor_sets : List Nat
deriving DecidableEq, Repr

structure descriptor_set_layout_binding where
  binding : Nat
  descriptorType : VkDescriptorType
  descriptorCount : Nat
  stageFlags : Nat
  immutableSamplers : List Nat
deriving DecidableEq, Repr

structure sync_descriptor_set_layout where
  descriptor_set_layout : Nat
  flags : Nat
  bindings : List descriptor_set_layout_binding
deriving DecidableEq, Repr

structure sync_pipeline_layout where
  pipeline_layout : Nat
  flags : Nat
  setLayouts : List Nat
  pushConstantRanges : List Nat
deriving DecidableEq, Repr

/-- sync_render_pass: none of the embedded operations inspect its payload,
so attachments/subpasses/dependencies are carried opaquely. -/
structure sync_render_pass where
  render_pass : Nat
  payload : List Nat
deriving DecidableEq, Repr

structure sync_device_memory where
  deviceMemory : Nat
  uid : Nat
  allocationSize : Nat
  memoryTypeIndex : Nat
  isMapped : Bool
  mapOffset : Nat
  mapSize : Nat
  mapFlags : Nat
deriving DecidableEq, Repr

structure sync_buffer where
  buffer : Nat
  flags : Nat
  size : Nat
  usage : Nat
  memoryRequirementsSize : Nat
  memory : Nat
  memoryOffset : Nat
deriving DecidableEq, Repr

structure sync_buffer_view where
  buffer_view : Nat
  flags : Nat
  buffer : Nat
  format : Nat
  offset : Nat
  range : Nat
deriving DecidableEq, Repr

structure sync_image where
  image : Nat
  isSwapchain : Bool
  flags : Nat
  format : Nat
  mipLevels : Nat
  arrayLayers : Nat
  memoryRequirementsSize : Nat
  memory : Nat
  memoryOffset : Nat
deriving DecidableEq, Repr

structure sync_image_view where
  image_view : Nat
  flags : Nat
  image : Nat
  viewType : Nat
  format : Nat
  subresourceRange : VkImageSubresourceRange
deriving DecidableEq, Repr

structure sync_graphics_pipeline where
  pipeline : Nat
  flags : Nat
  stages : List Nat
  layout : Nat
  renderPass : Nat
  subpass : Nat
deriving DecidableEq, Repr

structure sync_swapchain where
  swapchain : Nat
  images : List Nat
deriving DecidableEq, Repr

/-- `sync_device` (sync.h 690-729): the per-device shadow store. -/
structure sync_device where
  command_pools : MapL sync_command_pool
  command_buffers : MapL sync_command_buffer
  descriptor_pools : MapL sync_descriptor_pool
  descriptor_sets : MapL sync_descriptor_set
  render_passes : MapL sync_render_pass
  descriptor_set_layouts : MapL sync_descriptor_set_layout
  pipeline_layouts : MapL sync_pipeline_layout
  device_memories : MapL sync_device_memory
  buffers : MapL sync_buffer
  buffer_views : MapL sync_buffer_view
  images : MapL sync_image
  image_views : MapL sync_image_view
  graphics_pipelines : MapL sync_graphics_pipeline
  swapchains : MapL sync_swapchain
  nextMemoryUid : Nat
deriving DecidableEq, Repr

/- ### Embedded layer entry points

Each embedded entry point takes the pre-call device shadow state, the
diagnostics sink and the report trace so far, and returns the post-call
state together with:
  * `passThrough`: whether control reached the pass-through dispatch call
    (false when the source returns early);
  * `ub`: true on the paths where the source dereferences the end iterator
    of a failed map lookup (unknown handle and the error report's callback
    returned false); behaviour past such a point is not modelled. -/

structure OpRes where
  device : sync_device
  log : LogSt
  passThrough : Bool
  ub : Bool

/-- Result of `get_sync_command_buffer` (sync.cpp 179-197). -/
inductive CmdBufLookup
| skip
| found (b : sync_command_buffer)
| undefinedBehavior

/-- `get_sync_command_buffer` (sync.cpp 179-197): issues the per-call DEBUG
report, then looks the handle up.  Note that the command buffer's state
(INITIAL/RECORDING/EXECUTABLE) is never consulted.  When the handle is
unknown and the error report's callback returns false, the source falls
through to `return &it->second` with `it == end()`. -/
def get_sync_command_buffer (d : sync_device) (commandBuffer : Nat)
    (sink : Sink) (st : LogSt) : CmdBufLookup × LogSt :=
  let r := logDebug sink st
  if r.1 then (CmdBufLookup.skip, r.2)
  else
    match lookupM d.command_buffers commandBuffer with
    | none =>
      let r2 := logError sink r.2
      if r2.1 then (CmdBufLookup.skip, r2.2)
      else (CmdBufLookup.undefinedBehavior, r2.2)
    | some b => (CmdBufLookup.found b, r.2)

/-- Shared body of every `vkCmd*` recording entry point (sync.cpp
2115-2371): `get_sync_command_buffer`, then `buf->commands.emplace_back`
with the recorded command, then pass-through dispatch.  No state check is
performed before appending. -/
def recordCommand (d : sync_device) (commandBuffer : Nat) (cmd : SyncCmd)
    (sink : Sink) (st : LogSt) : OpRes :=
  match get_sync_command_buffer d commandBuffer sink st with
  | (CmdBufLookup.skip, st2) => ⟨d, st2, false, false⟩
  | (CmdBufLookup.undefinedBehavior, st2) => ⟨d, st2, false, true⟩
  | (CmdBufLookup.found b, st2) =>
    let b2 := { b with commands := b.commands ++ [cmd] }
    ⟨{ d with command_buffers := setM d.command_buffers commandBuffer b2 },
      st2, true, false⟩

/-- `vkCmdDraw` (sync.cpp 2214-2230). -/
def vkCmdDraw (d : sync_device) (commandBuffer vertexCount instanceCount
    firstVertex firstInstance : Nat) (sink : Sink) (st : LogSt) : OpRes :=
  recordCommand d commandBuffer
    (SyncCmd.draw vertexCount instanceCount firstVertex firstInstance) sink st

/-- `vkCmdBindPipeline` (sync.cpp 2115-2129). -/
def vkCmdBindPipeline (d : sync_device) (commandBuffer : Nat)
    (pipelineBindPoint : VkPipelineBindPoint) (pipeline : Nat)
    (sink : Sink) (st : LogSt) : OpRes :=
  recordCommand d commandBuffer
    (SyncCmd.bind_pipeline pipelineBindPoint pipeline) sink st

/-- `vkCmdPipelineBarrier` (sync.cpp 2290-2319). -/
def vkCmdPipelineBarrier (d : sync_device) (commandBuffer srcStageMask
    dstStageMask dependencyFlags : Nat) (memoryBarriers bufferMemoryBarriers
    imageMemoryBarriers : List Nat) (sink : Sink) (st : LogSt) : OpRes :=
  recordCommand d commandBuffer
    (SyncCmd.pipeline_barrier srcStageMask dstStageMask dependencyFlags
      memoryBarriers bufferMemoryBarriers imageMemoryBarriers) sink st

/-- `vkCmdBeginRenderPass` (sync.cpp 2328-2342). -/
def vkCmdBeginRenderPass (d : sync_device) (commandBuffer renderPass
    framebuffer : Nat) (clearValues : List Nat) (contents : Nat)
    (sink : Sink) (st : LogSt) : OpRes :=
  recordCommand d commandBuffer
    (SyncCmd.begin_render_pass renderPass framebuffer clearValues contents) sink st

/-- `vkDestroyCommandPool` (sync.cpp 1842-1877): on a known pool, erases
every command buffer listed in the pool's child set from the device-wide
command-buffer map, then erases the pool itself. -/
def vkDestroyCommandPool (d : sync_device) (commandPool : Nat)
    (sink : Sink) (st : LogSt) : OpRes :=
  let r := logDebug sink st
  if r.1 then ⟨d, r.2, false, false⟩
  else
    match lookupM d.command_pools commandPool with
    | none =>
      let r2 := logError sink r.2
      if r2.1 then ⟨d, r2.2, false, false⟩
      else ⟨d, r2.2, true, false⟩
    | some pool =>
      ⟨{ d with
          command_buffers :=
            pool.command_buffers.foldl (fun acc cb => eraseM acc cb) d.command_buffers
          command_pools := eraseM d.command_pools commandPool },
        r.2, true, false⟩

/-- `vkDestroyDescriptorPool` (sync.cpp 1423-1458): the descriptor-pool
counterpart of `vkDestroyCommandPool`. -/
def vkDestroyDescriptorPool (d : sync_device) (descriptorPool : Nat)
    (sink : Sink) (st : LogSt) : OpRes :=
  let r := logDebug sink st
  if r.1 then ⟨d, r.2, false, false⟩
  else
    match lookupM d.descriptor_pools descriptorPool with
    | none =>
      let r2 := logError sink r.2
      if r2.1 then ⟨d, r2.2, false, false⟩
      else ⟨d, r2.2, true, false⟩
    | some pool =>
      ⟨{ d with
          descriptor_sets :=
            pool.descriptor_sets.foldl (fun acc ds => eraseM acc ds) d.descriptor_sets
          descriptor_pools := eraseM d.descriptor_pools descriptorPool },
        r.2, true, false⟩

/-- `vkResetCommandBuffer` (sync.cpp 2087-2111).  On an unknown handle with
a false-returning error report the source calls `it->second.reset()` on the
end iterator (modelled as `ub`). -/
def vkResetCommandBuffer (d : sync_device) (commandBuffer : Nat)
    (sink : Sink) (st : LogSt) : OpRes :=
  let r := logDebug sink st
  if r.1 then ⟨d, r.2, false, false⟩
  else
    match lookupM d.command_buffers commandBuffer with
    | none =>
      let r2 := logError sink r.2
      if r2.1 then ⟨d, r2.2, false, false⟩
      else ⟨d, r2.2, true, true⟩
    | some b =>
      ⟨{ d with command_buffers := setM d.command_buffers commandBuffer b.reset },
        r.2, true, false⟩

/-- `vkResetCommandPool` (sync.cpp 1879-1912): resets (in place) every
command buffer in the pool's child set.  The source asserts that each child
is present in the device-wide map; a missing child is skipped here. -/
def vkResetCommandPool (d : sync_device) (commandPool : Nat)
    (sink : Sink) (st : LogSt) : OpRes :=
  let r := logDebug sink st
  if r.1 then ⟨d, r.2, false, false⟩
  else
    match lookupM d.command_pools commandPool with
    | none =>
      let r2 := logError sink r.2
      if r2.1 then ⟨d, r2.2, false, false⟩
      else ⟨d, r2.2, true, false⟩
    | some pool =>
      ⟨{ d with
          command_buffers :=
            pool.command_buffers.foldl
              (fun acc cb =>
                match lookupM acc cb with
                | some b => setM acc cb b.reset
                | none => acc)
              d.command_buffers },
        r.2, true, false⟩

/- ### vkUpdateDescriptorSets (sync.cpp 1619-1713) -/

structure VkWriteDescriptorSet where
  dstSet : Nat
  dstBinding : Nat
  dstArrayElement : Nat
  descriptorCount : Nat
  descriptorType : VkDescriptorType
  imageInfos : List VkDescriptorImageInfo
  bufferInfos : List VkDescriptorBufferInfo
  texelBufferViews : List Nat
deriving DecidableEq, Repr

def nullImageInfo : VkDescriptorImageInfo := ⟨0, 0, 0⟩
def nullBufferInfo : VkDescriptorBufferInfo := ⟨0, 0, 0⟩
def nullDescriptor : sync_descriptor_set_descriptor :=
  ⟨false, nullImageInfo, nullBufferInfo, 0⟩

def maxKeyM {α : Type} (m : MapL α) : Nat :=
  m.foldl (fun acc p => max acc p.1) 0

/-- The switch over `binding_type` that fills in the targeted descriptor
slot (sync.cpp 1675-1701). -/
def writeDescriptor (w : VkWriteDescriptorSet) (j : Nat)
    (descriptor : sync_descriptor_set_descriptor) : sync_descriptor_set_descriptor :=
  match w.descriptorType with
  | VkDescriptorType.sampler
  | VkDescriptorType.combinedImageSampler
  | VkDescriptorType.sampledImage
  | VkDescriptorType.storageImage
  | VkDescriptorType.inputAttachment =>
    { descriptor with imageInfo := w.imageInfos.getD j nullImageInfo, valid := true }
  | VkDescriptorType.uniformTexelBuffer
  | VkDescriptorType.storageTexelBuffer =>
    { descriptor with bufferView := w.texelBufferViews.getD j 0, valid := true }
  | VkDescriptorType.uniformBuffer
  | VkDescriptorType.storageBuffer
  | VkDescriptorType.uniformBufferDynamic
  | VkDescriptorType.storageBufferDynamic =>
    { descriptor with bufferInfo := w.bufferInfos.getD j nullBufferInfo, valid := true }
  | VkDescriptorType.invalidType =>
    { descriptor with valid := false }

/-- Outcome of the inner `while (true)` loop (sync.cpp 1653-1704) for one
descriptor index `j`. -/
inductive UpdStep
| ret (st : LogSt)
| next (bindings : MapL sync_descriptor_set_descriptor_array)
    (binding_id binding_element : Nat) (st : LogSt)

/-- The inner `while (true)` loop (sync.cpp 1653-1704).  Each iteration
either finds the current `binding_id` undefined in the set (error report;
return on a true response, otherwise break), overflows into the next
binding (`binding_id++; binding_element = 0; continue`), or writes the
targeted slot and breaks.  Note that on the write path `binding_element`
is NOT advanced before the break.  The loop terminates because
`binding_id` grows past the largest declared binding number; `fuel` is
instantiated accordingly below. -/
def updWhile (sink : Sink) (w : VkWriteDescriptorSet) (j : Nat) :
    Nat → MapL sync_descriptor_set_descriptor_array → Nat → Nat → LogSt → UpdStep
  | 0, bindings, binding_id, binding_element, st =>
    UpdStep.next bindings binding_id binding_element st
  | fuel + 1, bindings, binding_id, binding_element, st =>
    match lookupM bindings binding_id with
    | none =>
      let r := logError sink st
      if r.1 then UpdStep.ret r.2
      else UpdStep.next bindings binding_id binding_element r.2
    | some arr =>
      if arr.descriptors.length ≤ binding_element then
        updWhile sink w j fuel bindings (binding_id + 1) 0 st
      else
        let descriptor := arr.descriptors.getD binding_element nullDescriptor
        UpdStep.next
          (setM bindings binding_id
            { arr with descriptors :=
                arr.descriptors.set binding_element (writeDescriptor w j descriptor) })
          binding_id binding_element st

/-- Outcome of processing the descriptors of one VkWriteDescriptorSet. -/
inductive UpdOutcome
| ret (st : LogSt)
| done (bindings : MapL sync_descriptor_set_descriptor_array) (st : LogSt)

/-- The `for (j = 0; j < descriptorCount; ++j)` loop (sync.cpp 1651-1705),
threading `binding_id`/`binding_element` across iterations exactly as the
source does. -/
def updJs (sink : Sink) (w : VkWriteDescriptorSet) :
    List Nat → MapL sync_descriptor_set_descriptor_array → Nat → Nat → LogSt → UpdOutcome
  | [], bindings, _, _, st => UpdOutcome.done bindings st
  | j :: rest, bindings, binding_id, binding_element, st =>
    match updWhile sink w j (maxKeyM bindings + 2) bindings binding_id binding_element st with
    | UpdStep.ret st2 => UpdOutcome.ret st2
    | UpdStep.next b2 id2 el2 st2 => updJs sink w rest b2 id2 el2 st2

/-- Outcome of the outer loop over pDescriptorWrites. -/
inductive UpdsOutcome
| ret (d : sync_device) (st : LogSt)
| undefinedBehavior (d : sync_device) (st : LogSt)
| done (d : sync_device) (st : LogSt)

/-- The `for (i = 0; i < descriptorWriteCount; ++i)` loop (sync.cpp
1631-1707).  On an unknown `dstSet` with a false-returning error report the
source falls through and dereferences the end iterator. -/
def updWrites (sink : Sink) :
    List VkWriteDescriptorSet → sync_device → LogSt → UpdsOutcome
  | [], d, st => UpdsOutcome.done d st
  | w :: rest, d, st =>
    match lookupM d.descriptor_sets w.dstSet with
    | none =>
      let r := logError sink st
      if r.1 then UpdsOutcome.ret d r.2
      else UpdsOutcome.undefinedBehavior d r.2
    | some ds =>
      match updJs sink w (List.range w.descriptorCount) ds.bindings
          w.dstBinding w.dstArrayElement st with
      | UpdOutcome.ret st2 => UpdsOutcome.ret d st2
      | UpdOutcome.done newBindings st2 =>
        let ds2 := { ds with bindings := newBindings }
        updWrites sink rest
          { d with descriptor_sets := setM d.descriptor_sets w.dstSet ds2 } st2

structure UpdRes where
  device : sync_device
  log : LogSt
  passThrough : Bool
  ub : Bool
  assertChecked : Option Bool

/-- `vkUpdateDescriptorSets` (sync.cpp 1619-1713).  The copies parameter
(`pDescriptorCopies`) is carried opaquely: the body never reads it; its
only use is the `assert(descriptorCopyCount == 0)` just before the
dispatch call.  `assertChecked` is `none` on paths that return before the
assertion and `some (descriptorCopyCount == 0)` when the assertion is
reached; a failed assertion aborts the process, so the dispatch call is
only reached when it holds. -/
def vkUpdateDescriptorSets (d : sync_device)
    (descriptorWrites : List VkWriteDescriptorSet) (descriptorCopies : List Nat)
    (sink : Sink) (st : LogSt) : UpdRes :=
  let r := logDebug sink st
  if r.1 then ⟨d, r.2, false, false, none⟩
  else
    match updWrites sink descriptorWrites d r.2 with
    | UpdsOutcome.ret d2 st2 => ⟨d2, st2, false, false, none⟩
    | UpdsOutcome.undefinedBehavior d2 st2 => ⟨d2, st2, false, true, none⟩
    | UpdsOutcome.done d2 st2 =>
      ⟨d2, st2, descriptorCopies.length == 0, false, some (descriptorCopies.length == 0)⟩

/- ### Further map lemmas for the pool-cascade claims -/

theorem lookupM_mem {α : Type} {m : MapL α} {k : Nat} {v : α}
    (h : lookupM m k = some v) : (k, v) ∈ m := by
  induction m with
  | nil => simp [lookupM] at h
  | cons p rest ih =>
    obtain ⟨k1, v1⟩ := p
    by_cases hp : k1 = k
    · simp [lookupM, hp] at h
      subst hp
      subst h
      exact List.mem_cons_self _ _
    · simp [lookupM, hp] at h
      exact List.mem_cons_of_mem _ (ih h)

theorem mem_eraseM {α : Type} {m : MapL α} {k : Nat} {x : Nat × α} :
    x ∈ eraseM m k ↔ x ∈ m ∧ x.1 ≠ k := by
  induction m with
  | nil => simp [eraseM]
  | cons p rest ih =>
    by_cases hp : p.1 = k
    · simp only [eraseM]
      rw [if_pos hp, ih]
      simp only [List.mem_cons]
      constructor
      · rintro ⟨hm, hne⟩
        exact ⟨Or.inr hm, hne⟩
      · rintro ⟨hx | hm, hne⟩
        · subst hx
          exact absurd hp hne
        · exact ⟨hm, hne⟩
    · simp only [eraseM]
      rw [if_neg hp]
      simp only [List.mem_cons, ih]
      constructor
      · rintro (hx | ⟨hm, hne⟩)
        · subst hx
          exact ⟨Or.inl rfl, hp⟩
        · exact ⟨Or.inr hm, hne⟩
      · rintro ⟨hx | hm, hne⟩
        · exact Or.inl hx
        · exact Or.inr ⟨hm, hne⟩

theorem mem_foldl_eraseM {α : Type} (l : List Nat) (m : MapL α) (x : Nat × α) :
    x ∈ l.foldl (fun acc c => eraseM acc c) m ↔ x ∈ m ∧ x.1 ∉ l := by
  induction l generalizing m with
  | nil => simp
  | cons c rest ih =>
    simp only [List.foldl, List.mem_cons]
    rw [ih, mem_eraseM]
    constructor
    · rintro ⟨⟨hm, hne⟩, hnr⟩
      exact ⟨hm, by rintro (h | h); exacts [hne h, hnr h]⟩
    · rintro ⟨hm, hn⟩
      exact ⟨⟨hm, fun h => hn (Or.inl h)⟩, fun h => hn (Or.inr h)⟩

/-- The `this must remain in sync with ...` invariant documented on
`sync_device::command_buffers` and `sync_device::descriptor_sets`
(sync.h 697-708), stated generically: every child listed by a pool is in
the device-wide child map and points back at that pool, and every child in
the device-wide map is listed by the (existing) pool it points at. -/
def poolChildrenInSync {α β : Type} (pools : MapL α) (children : α → List Nat)
    (childMap : MapL β) (parentOf : β → Nat) : Prop :=
  (∀ pp ∈ pools, ∀ c ∈ children pp.2,
     ∃ b, lookupM childMap c = some b ∧ parentOf b = pp.1) ∧
  (∀ bp ∈ childMap,
     ∃ p, lookupM pools (parentOf bp.2) = some p ∧ bp.1 ∈ children p)

def cmdPoolsInSync (d : sync_device) : Prop :=
  poolChildrenInSync d.command_pools (fun p => p.command_buffers)
    d.command_buffers (fun b => b.command_pool)

def descPoolsInSync (d : sync_device) : Prop :=
  poolChildrenInSync d.descriptor_pools (fun p => p.descriptor_sets)
    d.descriptor_sets (fun s => s.descriptor_pool)

/-- Erasing one pool together with all children it lists preserves the
parent/child sync invariant. -/
theorem destroy_preserves_poolChildrenInSync {α β : Type}
    {pools : MapL α} {children : α → List Nat}
    {childMap : MapL β} {parentOf : β → Nat}
    (h : poolChildrenInSync pools children childMap parentOf)
    {ph : Nat} {p0 : α} (hp : lookupM pools ph = some p0) :
    poolChildrenInSync (eraseM pools ph) children
      ((children p0).foldl (fun acc c => eraseM acc c) childMap) parentOf := by
  constructor
  · intro pp hpp c hc
    rw [mem_eraseM] at hpp
    obtain ⟨hppm, hppne⟩ := hpp
    obtain ⟨b, hb, hpar⟩ := h.1 pp hppm c hc
    have hcp0 : c ∉ children p0 := by
      intro hcp0
      obtain ⟨b0, hb0, hpar0⟩ := h.1 (ph, p0) (lookupM_mem hp) c hcp0
      rw [hb] at hb0
      exact hppne (by rw [← hpar, Option.some_inj.mp hb0, hpar0])
    refine ⟨b, ?_, hpar⟩
    rw [lookupM_foldl_eraseM, if_neg hcp0]
    exact hb
  · intro bp hbp
    rw [mem_foldl_eraseM] at hbp
    obtain ⟨hbm, hbn⟩ := hbp
    obtain ⟨p, hpl, hmem⟩ := h.2 bp hbm
    have hne : parentOf bp.2 ≠ ph := by
      intro heq
      rw [heq, hp] at hpl
      exact hbn (Option.some_inj.mp hpl ▸ hmem)
    refine ⟨p, ?_, hmem⟩
    rw [lookupM_eraseM_ne _ hne]
    exact hpl

/-- C7: destroying a command pool (resp. descriptor pool) removes the
shadow record of every child command buffer (resp. descriptor set) from
the device-wide map and removes the pool; afterwards a lookup of a removed
child handle fails and produces an unknown-handle error report (shown via
`get_sync_command_buffer` for command buffers and via the
`vkUpdateDescriptorSets` write loop for descriptor sets), and the sync
invariant between the device-wide child maps and the pools' child sets is
preserved. -/
theorem destroy_pool_cascade :
    (∀ (d : sync_device) (ph : Nat) (p0 : sync_command_pool) (sink : Sink) (st : LogSt),
       sink st.trace.length = false →
       lookupM d.command_pools ph = some p0 →
       cmdPoolsInSync d →
       (∀ cb ∈ p0.command_buffers,
          lookupM (vkDestroyCommandPool d ph sink st).device.command_buffers cb = none) ∧
       lookupM (vkDestroyCommandPool d ph sink st).device.command_pools ph = none ∧
       cmdPoolsInSync (vkDestroyCommandPool d ph sink st).device ∧
       (∀ (sink2 : Sink) (st2 : LogSt), ∀ cb ∈ p0.command_buffers,
          sink2 st2.trace.length = false →
          (get_sync_command_buffer (vkDestroyCommandPool d ph sink st).device
              cb sink2 st2).2.trace =
            st2.trace ++ [⟨DbgLevel.debug, DbgLevel.debug, false⟩,
              ⟨DbgLevel.error, DbgLevel.debug, sink2 (st2.trace.length + 1)⟩])) ∧
    (∀ (d : sync_device) (ph : Nat) (p0 : sync_descriptor_pool) (sink : Sink) (st : LogSt),
       sink st.trace.length = false →
       lookupM d.descriptor_pools ph = some p0 →
       descPoolsInSync d →
       (∀ ds ∈ p0.descriptor_sets,
          lookupM (vkDestroyDescriptorPool d ph sink st).device.descriptor_sets ds = none) ∧
       lookupM (vkDestroyDescriptorPool d ph sink st).device.descriptor_pools ph = none ∧
       descPoolsInSync (vkDestroyDescriptorPool d ph sink st).device ∧
       (∀ (w : VkWriteDescriptorSet) (rest : List VkWriteDescriptorSet)
          (sink2 : Sink) (st2 : LogSt), w.dstSet ∈ p0.descriptor_sets →
          updWrites sink2 (w :: rest)
              (vkDestroyDescriptorPool d ph sink st).device st2 =
            (if sink2 st2.trace.length then
               UpdsOutcome.ret (vkDestroyDescriptorPool d ph sink st).device
                 ⟨st2.trace ++ [⟨DbgLevel.error, DbgLevel.debug, true⟩]⟩
             else
               UpdsOutcome.undefinedBehavior (vkDestroyDescriptorPool d ph sink st).device
                 ⟨st2.trace ++ [⟨DbgLevel.error, DbgLevel.debug, false⟩]⟩))) := by
  constructor
  · intro d ph p0 sink st h0 hp hsync
    have hres : vkDestroyCommandPool d ph sink st =
        ⟨{ d with
            command_buffers :=
              p0.command_buffers.foldl (fun acc cb => eraseM acc cb) d.command_buffers
            command_pools := eraseM d.command_pools ph },
          ⟨st.trace ++ [⟨DbgLevel.debug, DbgLevel.debug, false⟩]⟩, true, false⟩ := by
      simp [vkDestroyCommandPool, logDebug, logGeneric, h0, hp]
    refine ⟨?_, ?_, ?_, ?_⟩
    · intro cb hcb
      rw [hres]
      simp only
      rw [lookupM_foldl_eraseM, if_pos hcb]
    · rw [hres]
      simp only
      exact lookupM_eraseM_self _ _
    · rw [hres]
      exact destroy_preserves_poolChildrenInSync hsync hp
    · intro sink2 st2 cb hcb h2
      have hnone : lookupM (vkDestroyCommandPool d ph sink st).device.command_buffers cb = none := by
        rw [hres]
        simp only
        rw [lookupM_foldl_eraseM, if_pos hcb]
      simp [get_sync_command_buffer, logDebug, logError, logGeneric, h2, hnone]
      by_cases h3 : sink2 (st2.trace.length + 1) <;> simp [h3]
  · intro d ph p0 sink st h0 hp hsync
    have hres : vkDestroyDescriptorPool d ph sink st =
        ⟨{ d with
            descriptor_sets :=
              p0.descriptor_sets.foldl (fun acc ds => eraseM acc ds) d.descriptor_sets
            descriptor_pools := eraseM d.descriptor_pools ph },
          ⟨st.trace ++ [⟨DbgLevel.debug, DbgLevel.debug, false⟩]⟩, true, false⟩ := by
      simp [vkDestroyDescriptorPool, logDebug, logGeneric, h0, hp]
    refine ⟨?_, ?_, ?_, ?_⟩
    · intro ds hds
      rw [hres]
      simp only
      rw [lookupM_foldl_eraseM, if_pos hds]
    · rw [hres]
      simp only
      exact lookupM_eraseM_self _ _
    · rw [hres]
      exact destroy_preserves_poolChildrenInSync hsync hp
    · intro w rest sink2 st2 hw
      have hnone : lookupM (vkDestroyDescriptorPool d ph sink st).device.descriptor_sets w.dstSet = none := by
        rw [hres]
        simp only
        rw [lookupM_foldl_eraseM, if_pos hw]
      by_cases h3 : sink2 st2.trace.length <;>
        simp [updWrites, logError, logGeneric, hnone, h3]

/-- C7 witness: a concrete device with one command pool owning one buffer
and one descriptor pool owning one set; both cascade conclusions applied. -/
theorem destroy_pool_cascade_witness :
    (∀ cb ∈ [2], lookupM (vkDestroyCommandPool
      { command_pools := [(1, ⟨1, [2]⟩)]
        command_buffers := [(2, ⟨2, 1, VkCommandBufferLevel.primary,
          sync_command_buffer_state.INITIAL, 0, 0, 0, 0, false, 0, 0, []⟩)]
        descriptor_pools := [(3, ⟨3, [4]⟩)]
        descriptor_sets := [(4, ⟨4, 3, 0, []⟩)]
        render_passes := [], descriptor_set_layouts := [], pipeline_layouts := []
        device_memories := [], buffers := [], buffer_views := [], images := []
        image_views := [], graphics_pipelines := [], swapchains := []
        nextMemoryUid := 0 }
      1 (fun _ => false) LogSt.empty).device.command_buffers cb = none) ∧
    lookupM (vkDestroyCommandPool
      { command_pools := [(1, ⟨1, [2]⟩)]
        command_buffers := [(2, ⟨2, 1, VkCommandBufferLevel.primary,
          sync_command_buffer_state.INITIAL, 0, 0, 0, 0, false, 0, 0, []⟩)]
        descriptor_pools := [(3, ⟨3, [4]⟩)]
        descriptor_sets := [(4, ⟨4, 3, 0, []⟩)]
        render_passes := [], descriptor_set_layouts := [], pipeline_layouts := []
        device_memories := [], buffers := [], buffer_views := [], images := []
        image_views := [], graphics_pipelines := [], swapchains := []
        nextMemoryUid := 0 }
      1 (fun _ => false) LogSt.empty).device.command_pools 1 = none := by
  have h := destroy_pool_cascade.1
    { command_pools := [(1, ⟨1, [2]⟩)]
      command_buffers := [(2, ⟨2, 1, VkCommandBufferLevel.primary,
        sync_command_buffer_state.INITIAL, 0, 0, 0, 0, false, 0, 0, []⟩)]
      descriptor_pools := [(3, ⟨3, [4]⟩)]
      descriptor_sets := [(4, ⟨4, 3, 0, []⟩)]
      render_passes := [], descriptor_set_layouts := [], pipeline_layouts := []
      device_memories := [], buffers := [], buffer_views := [], images := []
      image_views := [], graphics_pipelines := [], swapchains := []
      nextMemoryUid := 0 }
    1 ⟨1, [2]⟩ (fun _ => false) LogSt.empty rfl rfl
    (by
      constructor
      · intro pp hpp c hc
        simp only [List.mem_singleton] at hpp
        subst hpp
        simp only [List.mem_singleton] at hc
        subst hc
        exact ⟨_, rfl, rfl⟩
      · intro bp hbp
        simp only [List.mem_singleton] at hbp
        subst hbp
        exact ⟨⟨1, [2]⟩, rfl, by simp⟩)
  exact ⟨h.1, h.2.1⟩

/- ### C8: reset clears state -/

theorem sync_command_buffer.reset_reset (b : sync_command_buffer) :
    b.reset.reset = b.reset := rfl

/-- Lookup through the fold performed by `vkResetCommandPool`: every child
listed by the pool ends up reset, every other key is untouched. -/
theorem lookupM_foldl_resetCB (l : List Nat) (m : MapL sync_command_buffer) (k : Nat) :
    lookupM (l.foldl (fun acc cb =>
      match lookupM acc cb with
      | some b => setM acc cb b.reset
      | none => acc) m) k =
    if k ∈ l then (lookupM m k).map sync_command_buffer.reset else lookupM m k := by
  induction l generalizing m with
  | nil => simp
  | cons c rest ih =>
    simp only [List.foldl, List.mem_cons]
    rw [ih]
    by_cases hc : k = c
    · subst hc
      cases hm : lookupM m k with
      | none =>
        simp only [hm]
        by_cases hr : k ∈ rest <;> simp [hr, hm]
      | some b =>
        simp only [hm]
        by_cases hr : k ∈ rest <;>
          simp [hr, hm, lookupM_setM_self, sync_command_buffer.reset_reset]
    · cases hm : lookupM m c with
      | none =>
        simp only [hm]
        by_cases hr : k ∈ rest <;> simp [hr, hc]
      | some b =>
        simp only [hm]
        by_cases hr : k ∈ rest <;>
          simp [hr, hc, lookupM_setM_ne _ _ hc]

/-- C8: `sync_command_buffer::reset()` empties the command log and returns
the buffer to INITIAL, whatever the prior state, flags, inheritance fields
or recorded commands were; the same holds for the shadow record after
`vkResetCommandBuffer` on a known handle and after `vkResetCommandPool`
for every command buffer in the pool. -/
theorem reset_clears_state :
    (∀ b : sync_command_buffer,
       b.reset.commands = [] ∧
       b.reset.state = sync_command_buffer_state.INITIAL) ∧
    (∀ (d : sync_device) (cb : Nat) (sink : Sink) (st : LogSt) (b : sync_command_buffer),
       sink st.trace.length = false →
       lookupM d.command_buffers cb = some b →
       lookupM (vkResetCommandBuffer d cb sink st).device.command_buffers cb =
         some b.reset ∧
       (vkResetCommandBuffer d cb sink st).passThrough = true) ∧
    (∀ (d : sync_device) (ph : Nat) (p0 : sync_command_pool) (sink : Sink) (st : LogSt),
       sink st.trace.length = false →
       lookupM d.command_pools ph = some p0 →
       ∀ cb ∈ p0.command_buffers, ∀ b, lookupM d.command_buffers cb = some b →
         lookupM (vkResetCommandPool d ph sink st).device.command_buffers cb =
           some b.reset) := by
  refine ⟨fun b => ⟨rfl, rfl⟩, ?_, ?_⟩
  · intro d cb sink st b h0 hb
    have hres : vkResetCommandBuffer d cb sink st =
        ⟨{ d with command_buffers := setM d.command_buffers cb b.reset },
          ⟨st.trace ++ [⟨DbgLevel.debug, DbgLevel.debug, false⟩]⟩, true, false⟩ := by
      simp [vkResetCommandBuffer, logDebug, logGeneric, h0, hb]
    rw [hres]
    simp only
    rw [lookupM_setM_self, hb]
    exact ⟨rfl, trivial⟩
  · intro d ph p0 sink st h0 hp cb hcb b hb
    have hres : vkResetCommandPool d ph sink st =
        ⟨{ d with command_buffers :=
            p0.command_buffers.foldl (fun acc c =>
              match lookupM acc c with
              | some x => setM acc c x.reset
              | none => acc) d.command_buffers },
          ⟨st.trace ++ [⟨DbgLevel.debug, DbgLevel.debug, false⟩]⟩, true, false⟩ := by
      simp [vkResetCommandPool, logDebug, logGeneric, h0, hp]
    rw [hres]
    simp only
    rw [lookupM_foldl_resetCB, if_pos hcb, hb]
    rfl

/-- C8 witness: the three parts of the theorem applied to a concrete
buffer (EXECUTABLE state, one recorded command), a concrete device, and a
concrete pool. -/
theorem reset_clears_state_witness :
    ((sync_command_buffer.mk 2 1 VkCommandBufferLevel.primary
        sync_command_buffer_state.EXECUTABLE 7 3 1 4 true 5 6
        [SyncCmd.draw 3 1 0 0]).reset.commands = [] ∧
     (sync_command_buffer.mk 2 1 VkCommandBufferLevel.primary
        sync_command_buffer_state.EXECUTABLE 7 3 1 4 true 5 6
        [SyncCmd.draw 3 1 0 0]).reset.state = sync_command_buffer_state.INITIAL) ∧
    lookupM (vkResetCommandBuffer
      { command_pools := [(1, ⟨1, [2]⟩)]
        command_buffers := [(2, sync_command_buffer.mk 2 1 VkCommandBufferLevel.primary
          sync_command_buffer_state.EXECUTABLE 7 3 1 4 true 5 6
          [SyncCmd.draw 3 1 0 0])]
        descriptor_pools := [], descriptor_sets := []
        render_passes := [], descriptor_set_layouts := [], pipeline_layouts := []
        device_memories := [], buffers := [], buffer_views := [], images := []
        image_views := [], graphics_pipelines := [], swapchains := []
        nextMemoryUid := 0 }
      2 (fun _ => false) LogSt.empty).device.command_buffers 2 =
      some (sync_command_buffer.mk 2 1 VkCommandBufferLevel.primary
        sync_command_buffer_state.EXECUTABLE 7 3 1 4 true 5 6
        [SyncCmd.draw 3 1 0 0]).reset :=
  ⟨reset_clears_state.1 _,
   (reset_clears_state.2.1
     { command_pools := [(1, ⟨1, [2]⟩)]
       command_buffers := [(2, sync_command_buffer.mk 2 1 VkCommandBufferLevel.primary
         sync_command_buffer_state.EXECUTABLE 7 3 1 4 true 5 6
         [SyncCmd.draw 3 1 0 0])]
       descriptor_pools := [], descriptor_sets := []
       render_passes := [], descriptor_set_layouts := [], pipeline_layouts := []
       device_memories := [], buffers := [], buffer_views := [], images := []
       image_views := [], graphics_pipelines := [], swapchains := []
       nextMemoryUid := 0 }
     2 (fun _ => false) LogSt.empty _ rfl rfl).1⟩

/- ### C4: recording and the command-buffer state machine -/

/-- C4 counterexample: a command buffer that is in INITIAL state (freshly
allocated, never begun).  `vkCmdDraw` on it appends the draw command to its
log and reports no usage error — contradicting the claim that commands are
appended only in RECORDING state and that recording in INITIAL state is
reported as a usage error with the log left unchanged.  (The source's
`get_sync_command_buffer` never consults the state field.) -/
theorem record_in_initial_state_not_rejected :
    (sync_command_buffer.mk 5 1 VkCommandBufferLevel.primary
        sync_command_buffer_state.INITIAL 0 0 0 0 false 0 0 []).state =
      sync_command_buffer_state.INITIAL ∧
    lookupM (vkCmdDraw
      { command_pools := [(1, ⟨1, [5]⟩)]
        command_buffers := [(5, sync_command_buffer.mk 5 1 VkCommandBufferLevel.primary
          sync_command_buffer_state.INITIAL 0 0 0 0 false 0 0 [])]
        descriptor_pools := [], descriptor_sets := []
        render_passes := [], descriptor_set_layouts := [], pipeline_layouts := []
        device_memories := [], buffers := [], buffer_views := [], images := []
        image_views := [], graphics_pipelines := [], swapchains := []
        nextMemoryUid := 0 }
      5 3 1 0 0 (fun _ => false) LogSt.empty).device.command_buffers 5 =
      some (sync_command_buffer.mk 5 1 VkCommandBufferLevel.primary
        sync_command_buffer_state.INITIAL 0 0 0 0 false 0 0
        [SyncCmd.draw 3 1 0 0]) ∧
    ((vkCmdDraw
      { command_pools := [(1, ⟨1, [5]⟩)]
        command_buffers := [(5, sync_command_buffer.mk 5 1 VkCommandBufferLevel.primary
          sync_command_buffer_state.INITIAL 0 0 0 0 false 0 0 [])]
        descriptor_pools := [], descriptor_sets := []
        render_passes := [], descriptor_set_layouts := [], pipeline_layouts := []
        device_memories := [], buffers := [], buffer_views := [], images := []
        image_views := [], graphics_pipelines := [], swapchains := []
        nextMemoryUid := 0 }
      5 3 1 0 0 (fun _ => false) LogSt.empty).log.trace.all
        (fun r => r.nominal ≠ DbgLevel.error)) = true := by
  refine ⟨rfl, by decide, by decide⟩

/-- C4 (amended): every command-recording entry point (all share the body
`recordCommand`) appends the command to the shadow log of a KNOWN command
buffer handle unconditionally — the state (INITIAL / RECORDING /
EXECUTABLE) is never consulted and no usage error is reported for
recording outside RECORDING; only an UNKNOWN handle produces a usage-error
report, and in that case the shadow state is unchanged.  (Hypothesis: the
per-call DEBUG report returns false, i.e. does not request an abort.) -/
theorem record_appends_regardless_of_state
    (d : sync_device) (cb : Nat) (cmd : SyncCmd) (sink : Sink) (st : LogSt)
    (h0 : sink st.trace.length = false) :
    (∀ b, lookupM d.command_buffers cb = some b →
       lookupM (recordCommand d cb cmd sink st).device.command_buffers cb =
         some { b with commands := b.commands ++ [cmd] } ∧
       (recordCommand d cb cmd sink st).log.trace =
         st.trace ++ [⟨DbgLevel.debug, DbgLevel.debug, false⟩] ∧
       (recordCommand d cb cmd sink st).passThrough = true) ∧
    (lookupM d.command_buffers cb = none →
       (recordCommand d cb cmd sink st).log.trace =
         st.trace ++ [⟨DbgLevel.debug, DbgLevel.debug, false⟩,
           ⟨DbgLevel.error, DbgLevel.debug, sink (st.trace.length + 1)⟩] ∧
       (recordCommand d cb cmd sink st).device = d ∧
       (recordCommand d cb cmd sink st).passThrough = false) := by
  constructor
  · intro b hb
    have hres : recordCommand d cb cmd sink st =
        ⟨{ d with
            command_buffers :=
              setM d.command_buffers cb { b with commands := b.commands ++ [cmd] } },
          ⟨st.trace ++ [⟨DbgLevel.debug, DbgLevel.debug, false⟩]⟩, true, false⟩ := by
      simp [recordCommand, get_sync_command_buffer, logDebug, logGeneric, h0, hb]
    rw [hres]
    refine ⟨?_, by trivial, by trivial⟩
    simp only
    rw [lookupM_setM_self, hb]
    trivial
  · intro hb
    by_cases h1 : sink (st.trace.length + 1) <;>
      simp [recordCommand, get_sync_command_buffer, logDebug, logError,
        logGeneric, h0, hb, h1]

/-- C4 witness: the amended theorem applied to a concrete device and a
concrete EXECUTABLE command buffer. -/
theorem record_appends_regardless_of_state_witness :
    lookupM (recordCommand
      { command_pools := [(1, ⟨1, [5]⟩)]
        command_buffers := [(5, sync_command_buffer.mk 5 1 VkCommandBufferLevel.primary
          sync_command_buffer_state.EXECUTABLE 0 0 0 0 false 0 0 [])]
        descriptor_pools := [], descriptor_sets := []
        render_passes := [], descriptor_set_layouts := [], pipeline_layouts := []
        device_memories := [], buffers := [], buffer_views := [], images := []
        image_views := [], graphics_pipelines := [], swapchains := []
        nextMemoryUid := 0 }
      5 (SyncCmd.end_render_pass) (fun _ => false) LogSt.empty).device.command_buffers 5 =
      some (sync_command_buffer.mk 5 1 VkCommandBufferLevel.primary
        sync_command_buffer_state.EXECUTABLE 0 0 0 0 false 0 0
        [SyncCmd.end_render_pass]) :=
  ((record_appends_regardless_of_state
    { command_pools := [(1, ⟨1, [5]⟩)]
      command_buffers := [(5, sync_command_buffer.mk 5 1 VkCommandBufferLevel.primary
        sync_command_buffer_state.EXECUTABLE 0 0 0 0 false 0 0 [])]
      descriptor_pools := [], descriptor_sets := []
      render_passes := [], descriptor_set_layouts := [], pipeline_layouts := []
      device_memories := [], buffers := [], buffer_views := [], images := []
      image_views := [], graphics_pipelines := [], swapchains := []
      nextMemoryUid := 0 }
    5 (SyncCmd.end_render_pass) (fun _ => false) LogSt.empty rfl).1
    _ rfl).1

/- ### C6 / C10 / C3 -/

def sync_device.empty : sync_device :=
  ⟨[], [], [], [], [], [], [], [], [], [], [], [], [], [], 0⟩

/-- C6 evaluation at the failing input: a descriptor set (handle 7) whose
layout declares binding 0 with descriptorCount 1 and binding 1 with
descriptorCount 1; a single `vkUpdateDescriptorSets` write of TWO buffer
descriptors starting at binding 0, array element 0.  The wire API (and the
claim) require the second descriptor to spill into binding 1, array
element 0.  The source never advances `binding_element` between
descriptors, so BOTH descriptors are written to binding 0, element 0 (the
second overwrites the first) and binding 1 is left untouched
(`valid == false`). -/
theorem updateDescriptorSets_write_does_not_spill :
    (Option.map (fun ds => (lookupM ds.bindings 0, lookupM ds.bindings 1))
      (lookupM (vkUpdateDescriptorSets
        { sync_device.empty with
            descriptor_pools := [(3, ⟨3, [7]⟩)]
            descriptor_sets := [(7, ⟨7, 3, 0,
              [(0, ⟨VkDescriptorType.storageBuffer, [nullDescriptor]⟩),
               (1, ⟨VkDescriptorType.storageBuffer, [nullDescriptor]⟩)]⟩)] }
        [⟨7, 0, 0, 2, VkDescriptorType.storageBuffer, [],
          [⟨10, 0, 4⟩, ⟨11, 0, 4⟩], []⟩]
        [] (fun _ => false) LogSt.empty).device.descriptor_sets 7)) =
      some
        (some ⟨VkDescriptorType.storageBuffer,
          [⟨true, nullImageInfo, ⟨11, 0, 4⟩, 0⟩]⟩,
         some ⟨VkDescriptorType.storageBuffer,
          [⟨false, nullImageInfo, nullBufferInfo, 0⟩]⟩) := by
  decide

/-- C10: `vkUpdateDescriptorSets` handles only descriptor writes.  The
copies parameter is never consumed (the resulting shadow state, report
trace and UB flag do not depend on it); with `descriptorCopyCount == 0`
the assertion can never fail; with a nonzero copy count the assertion
fails whenever it is reached, and the call is passed through to the driver
only when the assertion was reached and held. -/
theorem updateDescriptorSets_copies_unsupported :
    (∀ (d : sync_device) (writes : List VkWriteDescriptorSet) (sink : Sink) (st : LogSt),
       (vkUpdateDescriptorSets d writes [] sink st).assertChecked ≠ some false) ∧
    (∀ (d : sync_device) (writes : List VkWriteDescriptorSet) (copies : List Nat)
       (sink : Sink) (st : LogSt),
       (vkUpdateDescriptorSets d writes copies sink st).device =
         (vkUpdateDescriptorSets d writes [] sink st).device ∧
       (vkUpdateDescriptorSets d writes copies sink st).log =
         (vkUpdateDescriptorSets d writes [] sink st).log ∧
       (vkUpdateDescriptorSets d writes copies sink st).ub =
         (vkUpdateDescriptorSets d writes [] sink st).ub) ∧
    (∀ (d : sync_device) (writes : List VkWriteDescriptorSet) (copies : List Nat)
       (sink : Sink) (st : LogSt), copies ≠ [] →
       (vkUpdateDescriptorSets d writes copies sink st).assertChecked ≠ some true) ∧
    (∀ (d : sync_device) (writes : List VkWriteDescriptorSet) (copies : List Nat)
       (sink : Sink) (st : LogSt),
       (vkUpdateDescriptorSets d writes copies sink st).passThrough = true ↔
       (vkUpdateDescriptorSets d writes copies sink st).assertChecked = some true) := by
  refine ⟨?_, ?_, ?_, ?_⟩
  · intro d writes sink st
    unfold vkUpdateDescriptorSets
    by_cases h : (logDebug sink st).1 <;> simp only [h, if_true, if_false]
    · simp
    · cases hw : updWrites sink writes d (logDebug sink st).2 <;> simp
  · intro d writes copies sink st
    unfold vkUpdateDescriptorSets
    by_cases h : (logDebug sink st).1 <;> simp only [h, if_true, if_false]
    · exact ⟨by trivial, by trivial, by trivial⟩
    · cases hw : updWrites sink writes d (logDebug sink st).2 <;>
        exact ⟨by trivial, by trivial, by trivial⟩
  · intro d writes copies sink st hc
    have hlen : (copies.length == 0) = false := by
      cases copies with
      | nil => exact absurd rfl hc
      | cons a l => rfl
    unfold vkUpdateDescriptorSets
    by_cases h : (logDebug sink st).1 <;> simp only [h, if_true, if_false]
    · simp
    · cases hw : updWrites sink writes d (logDebug sink st).2 <;> simp [hlen]
  · intro d writes copies sink st
    unfold vkUpdateDescriptorSets
    by_cases h : (logDebug sink st).1 <;> simp only [h, if_true, if_false]
    · simp
    · cases hw : updWrites sink writes d (logDebug sink st).2 <;> simp

/-- C10 witness: the nonzero-copy-count part of the theorem applied at a
concrete call (one opaque copy record, no writes). -/
theorem updateDescriptorSets_copies_unsupported_witness :
    (vkUpdateDescriptorSets sync_device.empty [] [1] (fun _ => false)
      LogSt.empty).assertChecked ≠ some true :=
  updateDescriptorSets_copies_unsupported.2.2.1 sync_device.empty [] [1]
    (fun _ => false) LogSt.empty (by decide)

/-- C3: `_LOG_GENERIC` discards its severity argument — every report,
including every usage-error report issued through `LOG_ERROR`, is passed
to the diagnostics sink with the DEBUG severity bit, not ERROR.  First
conjunct: the macro's general behaviour for every nominal severity.
Second conjunct: the code evaluated at a concrete usage error
(`vkDestroyCommandPool` on an unknown handle): the unknown-handle report
is nominally ERROR but delivered with passed severity DEBUG. -/
theorem usage_errors_not_passed_at_error_severity :
    (∀ (nominal : DbgLevel) (sink : Sink) (st : LogSt),
       (logGeneric nominal sink st).2.trace =
         st.trace ++ [⟨nominal, DbgLevel.debug, sink st.trace.length⟩]) ∧
    (vkDestroyCommandPool sync_device.empty 3 (fun _ => false)
        LogSt.empty).log.trace =
      [⟨DbgLevel.debug, DbgLevel.debug, false⟩,
       ⟨DbgLevel.error, DbgLevel.debug, false⟩] ∧
    DbgLevel.debug ≠ DbgLevel.error :=
  ⟨fun nominal sink st => rfl, by decide, by decide⟩

/- ### SyncValidator::submitCmdBuffer (sync_validate.cpp 43-360)
     and vkQueueSubmit (sync.cpp 433-491)

The validator walks the command log with call-local binding state (current
graphics/compute pipeline, bound descriptor sets per set number).  Every
`return LOG_ERROR(...)` in the source returns the sink's response as the
function's result.  `std::map`/`std::vector` lookups are mirrored 1:1; the
`descriptors.at(array_idx)` calls can throw `std::out_of_range`, modelled
as the `exn` outcome (behaviour past it is not modelled).  The C++ stores
a pointer to the descriptor-set record in its `Binding` struct; since the
call performs no mutation, the embedded binding map stores the record
value itself (`dynamic_offset` is always 0 in the source and is
omitted). -/

structure SubmitAcc where
  graphics_pipeline : Nat
  compute_pipeline : Nat
  graphics_bindings : MapL sync_descriptor_set
  compute_bindings : MapL sync_descriptor_set

def SubmitAcc.initial : SubmitAcc := ⟨0, 0, [], []⟩

/-- Outcome of one of submitCmdBuffer's inner loops. -/
inductive LoopStep
| ret (result : Bool) (st : LogSt)
| exn (st : LogSt)
| ok (st : LogSt)

/-- The loop over `bind_descriptor_sets->descriptorSets`
(sync_validate.cpp 78-97). -/
def bindDescSetsLoop (d : sync_device) (bindPoint : VkPipelineBindPoint)
    (firstSet : Nat) (sink : Sink) :
    List Nat → Nat → SubmitAcc → LogSt → (SubmitAcc × LogSt) ⊕ (Bool × LogSt)
  | [], _, acc, st => Sum.inl (acc, st)
  | dsh :: rest, i, acc, st =>
    match lookupM d.descriptor_sets dsh with
    | none =>
      let r := logError sink st
      Sum.inr (r.1, r.2)
    | some ds =>
      let acc2 :=
        if bindPoint = VkPipelineBindPoint.graphics then
          { acc with graphics_bindings := insertM acc.graphics_bindings (firstSet + i) ds }
        else if bindPoint = VkPipelineBindPoint.compute then
          { acc with compute_bindings := insertM acc.compute_bindings (firstSet + i) ds }
        else acc
      bindDescSetsLoop d bindPoint firstSet sink rest (i + 1) acc2 st

/-- The first loop over the pipeline layout's set layouts (printing pass,
sync_validate.cpp 129-140): only unknown-set-layout errors have an
effect. -/
def drawCheckSetLayouts (d : sync_device) (sink : Sink) :
    List Nat → LogSt → LoopStep
  | [], st => LoopStep.ok st
  | sl :: rest, st =>
    match lookupM d.descriptor_set_layouts sl with
    | none =>
      let r := logError sink st
      LoopStep.ret r.1 r.2
    | some _ => drawCheckSetLayouts d sink rest st

/-- The loop over the array elements of one layout binding
(sync_validate.cpp 180-346): resolves each descriptor through the shadow
store (image view → image → memory, buffer view → buffer → memory, or
buffer → memory), erroring on the first dangling link. -/
def drawArrayLoop (d : sync_device) (binding : descriptor_set_layout_binding)
    (current : sync_descriptor_set_descriptor_array) (sink : Sink) :
    List Nat → LogSt → LoopStep
  | [], st => LoopStep.ok st
  | array_idx :: rest, st =>
    match binding.descriptorType with
    | VkDescriptorType.sampler
    | VkDescriptorType.combinedImageSampler
    | VkDescriptorType.sampledImage
    | VkDescriptorType.storageImage
    | VkDescriptorType.inputAttachment =>
      match current.descriptors.get? array_idx with
      | none => LoopStep.exn st
      | some descriptor =>
        match lookupM d.image_views descriptor.imageInfo.imageView with
        | none =>
          let r := logError sink st
          LoopStep.ret r.1 r.2
        | some iv =>
          match lookupM d.images iv.image with
          | none =>
            let r := logError sink st
            LoopStep.ret r.1 r.2
          | some img =>
            match lookupM d.device_memories img.memory with
            | none =>
              let r := logError sink st
              LoopStep.ret r.1 r.2
            | some _ => drawArrayLoop d binding current sink rest st
    | VkDescriptorType.uniformTexelBuffer
    | VkDescriptorType.storageTexelBuffer =>
      match current.descriptors.get? array_idx with
      | none => LoopStep.exn st
      | some descriptor =>
        match lookupM d.buffer_views descriptor.bufferView with
        | none =>
          let r := logError sink st
          LoopStep.ret r.1 r.2
        | some bv =>
          match lookupM d.buffers bv.buffer with
          | none =>
            let r := logError sink st
            LoopStep.ret r.1 r.2
          | some b =>
            match lookupM d.device_memories b.memory with
            | none =>
              let r := logError sink st
              LoopStep.ret r.1 r.2
            | some _ => drawArrayLoop d binding current sink rest st
    | VkDescriptorType.uniformBuffer
    | VkDescriptorType.storageBuffer
    | VkDescriptorType.uniformBufferDynamic
    | VkDescriptorType.storageBufferDynamic =>
      match current.descriptors.get? array_idx with
      | none => LoopStep.exn st
      | some descriptor =>
        match lookupM d.buffers descriptor.bufferInfo.buffer with
        | none =>
          let r := logError sink st
          LoopStep.ret r.1 r.2
        | some b =>
          match lookupM d.device_memories b.memory with
          | none =>
            let r := logError sink st
            LoopStep.ret r.1 r.2
          | some _ => drawArrayLoop d binding current sink rest st
    | VkDescriptorType.invalidType => drawArrayLoop d binding current sink rest st

/-- The loop over the bindings of one set layout (sync_validate.cpp
167-348); `binding_idx` is the positional counter the source uses to look
the binding up in the bound descriptor set. -/
def drawBindingsLoop (d : sync_device) (ds : sync_descriptor_set) (sink : Sink) :
    List descriptor_set_layout_binding → Nat → LogSt → LoopStep
  | [], _, st => LoopStep.ok st
  | binding :: rest, binding_idx, st =>
    match lookupM ds.bindings binding_idx with
    | none =>
      let r := logError sink st
      LoopStep.ret r.1 r.2
    | some current =>
      match drawArrayLoop d binding current sink
          (List.range binding.descriptorCount) st with
      | LoopStep.ok st2 => drawBindingsLoop d ds sink rest (binding_idx + 1) st2
      | LoopStep.ret r st2 => LoopStep.ret r st2
      | LoopStep.exn st2 => LoopStep.exn st2

/-- The "Accessible memory" loop over the pipeline layout's set layouts
(sync_validate.cpp 149-351); `set_idx` counts the sets positionally. -/
def drawSetsLoop (d : sync_device) (gbindings : MapL sync_descriptor_set)
    (sink : Sink) : List Nat → Nat → LogSt → LoopStep
  | [], _, st => LoopStep.ok st
  | sl :: rest, set_idx, st =>
    match lookupM d.descriptor_set_layouts sl with
    | none =>
      let r := logError sink st
      LoopStep.ret r.1 r.2
    | some layout =>
      match lookupM gbindings set_idx with
      | none =>
        let r := logError sink st
        LoopStep.ret r.1 r.2
      | some ds =>
        match drawBindingsLoop d ds sink layout.bindings 0 st with
        | LoopStep.ok st2 => drawSetsLoop d gbindings sink rest (set_idx + 1) st2
        | LoopStep.ret r st2 => LoopStep.ret r st2
        | LoopStep.exn st2 => LoopStep.exn st2

structure SubmitRes where
  device : sync_device
  result : Bool
  log : LogSt
  exn : Bool

/-- The `for (auto &cmd : buf.commands)` loop of submitCmdBuffer
(sync_validate.cpp 59-357).  A command is exactly one of the
`sync_cmd_*` kinds, so the source's sequence of
`as_bind_pipeline` / `as_bind_descriptor_sets` / `is_draw` tests is
embedded as: apply the bind-pipeline update, then handle a
bind-descriptor-sets command (which is never a draw), then handle a draw
command. -/
def applyBindPipeline (cmd : SyncCmd) (acc0 : SubmitAcc) : SubmitAcc :=
  match cmd.as_bind_pipeline with
  | some (bp, pl) =>
    if bp = VkPipelineBindPoint.graphics then { acc0 with graphics_pipeline := pl }
    else if bp = VkPipelineBindPoint.compute then { acc0 with compute_pipeline := pl }
    else acc0
  | none => acc0

def submitLoop (d : sync_device) (sink : Sink) :
    List SyncCmd → SubmitAcc → LogSt → SubmitRes
  | [], _, st => ⟨d, false, st, false⟩
  | cmd :: rest, acc0, st =>
    let acc := applyBindPipeline cmd acc0
    match cmd.as_bind_descriptor_sets with
    | some (bp, _, firstSet, sets) =>
      match bindDescSetsLoop d bp firstSet sink sets 0 acc st with
      | Sum.inr (r, st2) => ⟨d, r, st2, false⟩
      | Sum.inl (acc2, st2) => submitLoop d sink rest acc2 st2
    | none =>
      if cmd.is_draw then
        if acc.graphics_pipeline = 0 then
          let r := logError sink st
          ⟨d, r.1, r.2, false⟩
        else
          match lookupM d.graphics_pipelines acc.graphics_pipeline with
          | none =>
            let r := logError sink st
            ⟨d, r.1, r.2, false⟩
          | some pipeline =>
            match lookupM d.pipeline_layouts pipeline.layout with
            | none =>
              let r := logError sink st
              ⟨d, r.1, r.2, false⟩
            | some pipeline_layout =>
              match drawCheckSetLayouts d sink pipeline_layout.setLayouts st with
              | LoopStep.ret r st2 => ⟨d, r, st2, false⟩
              | LoopStep.exn st2 => ⟨d, false, st2, true⟩
              | LoopStep.ok st2 =>
                match drawSetsLoop d acc.graphics_bindings sink
                    pipeline_layout.setLayouts 0 st2 with
                | LoopStep.ret r st3 => ⟨d, r, st3, false⟩
                | LoopStep.exn st3 => ⟨d, false, st3, true⟩
                | LoopStep.ok st3 =>
                  let r := logInfo sink st3
                  if r.1 then ⟨d, true, r.2, false⟩
                  else submitLoop d sink rest acc r.2
      else submitLoop d sink rest acc st

/-- `SyncValidator::submitCmdBuffer` (sync_validate.cpp 43-360). -/
def submitCmdBuffer (d : sync_device) (queue : Nat) (buf : sync_command_buffer)
    (sink : Sink) (st : LogSt) : SubmitRes :=
  submitLoop d sink buf.commands SubmitAcc.initial st

/-- The inner per-command-buffer loop of vkQueueSubmit (sync.cpp 450-483),
accumulating `skipCall`.  Returns (skipCall, trace, exception?). -/
def queueSubmitLoop (d : sync_device) (queue : Nat) (sink : Sink) :
    List Nat → Bool → LogSt → Bool × LogSt × Bool
  | [], skip, st => (skip, st, false)
  | cb :: rest, skip, st =>
    let r1 := logDebug sink st
    match lookupM d.command_buffers cb with
    | none =>
      let r2 := logError sink r1.2
      queueSubmitLoop d queue sink rest (skip || r1.1 || r2.1) r2.2
    | some buf =>
      let r2 := logInfo sink r1.2
      let sres := submitCmdBuffer d queue buf sink r2.2
      if sres.exn then (skip || r1.1 || r2.1, sres.log, true)
      else queueSubmitLoop d queue sink rest
        (skip || r1.1 || r2.1 || sres.result) sres.log

/-- The outer loop of vkQueueSubmit over pSubmits (sync.cpp 448-484). -/
def queueSubmitSubmits (d : sync_device) (queue : Nat) (sink : Sink) :
    List (List Nat) → Bool → LogSt → Bool × LogSt × Bool
  | [], skip, st => (skip, st, false)
  | s :: rest, skip, st =>
    match queueSubmitLoop d queue sink s skip st with
    | (skip2, st2, true) => (skip2, st2, true)
    | (skip2, st2, false) => queueSubmitSubmits d queue sink rest skip2 st2

structure QSubmitRes where
  device : sync_device
  log : LogSt
  aborted : Bool
  passThrough : Bool
  exn : Bool

/-- `vkQueueSubmit` (sync.cpp 433-491): initial DEBUG report (a true
response returns VK_ERROR_VALIDATION_FAILED_EXT immediately), then the
nested loops accumulating `skipCall` from the response of EVERY report and
from submitCmdBuffer's result; a final true `skipCall` returns
VK_ERROR_VALIDATION_FAILED_EXT without calling the driver (`aborted`),
otherwise the call is passed through. -/
def vkQueueSubmit (d : sync_device) (queue : Nat) (pSubmits : List (List Nat))
    (sink : Sink) (st : LogSt) : QSubmitRes :=
  let r := logDebug sink st
  if r.1 then ⟨d, r.2, true, false, false⟩
  else
    match queueSubmitSubmits d queue sink pSubmits false r.2 with
    | (_, st2, true) => ⟨d, st2, false, false, true⟩
    | (skip, st2, false) =>
      if skip then ⟨d, st2, true, false, false⟩
      else ⟨d, st2, false, true, false⟩

/- ### C9: submitCmdBuffer is read-only over the shadow state -/

theorem submitLoop_device (d : sync_device) (sink : Sink) (cmds : List SyncCmd)
    (acc : SubmitAcc) (st : LogSt) :
    (submitLoop d sink cmds acc st).device = d := by
  induction cmds generalizing acc st with
  | nil => rfl
  | cons cmd rest ih =>
    unfold submitLoop
    repeat' (first | rfl | apply ih | split | dsimp only)

/-- C9: `SyncValidator::submitCmdBuffer` is read-only over the device
shadow state: for every device state, queue, command buffer, sink and
prior trace — whether the validation reports errors or not — the device
record after the call is the one passed in, so every shadow map (command
pools, command buffers, descriptor pools/sets/layouts, pipeline layouts,
pipelines, render passes, memories, buffers, buffer views, images, image
views, swapchains) is unchanged; the pipeline/descriptor-set binding state
lives only in the call-local `SubmitAcc` accumulator, which is discarded
on return. -/
theorem submitCmdBuffer_readonly (d : sync_device) (queue : Nat)
    (buf : sync_command_buffer) (sink : Sink) (st : LogSt) :
    (submitCmdBuffer d queue buf sink st).device = d ∧
    (submitCmdBuffer d queue buf sink st).device.command_pools = d.command_pools ∧
    (submitCmdBuffer d queue buf sink st).device.command_buffers = d.command_buffers ∧
    (submitCmdBuffer d queue buf sink st).device.descriptor_pools = d.descriptor_pools ∧
    (submitCmdBuffer d queue buf sink st).device.descriptor_sets = d.descriptor_sets ∧
    (submitCmdBuffer d queue buf sink st).device.render_passes = d.render_passes ∧
    (submitCmdBuffer d queue buf sink st).device.descriptor_set_layouts =
      d.descriptor_set_layouts ∧
    (submitCmdBuffer d queue buf sink st).device.pipeline_layouts = d.pipeline_layouts ∧
    (submitCmdBuffer d queue buf sink st).device.device_memories = d.device_memories ∧
    (submitCmdBuffer d queue buf sink st).device.buffers = d.buffers ∧
    (submitCmdBuffer d queue buf sink st).device.buffer_views = d.buffer_views ∧
    (submitCmdBuffer d queue buf sink st).device.images = d.images ∧
    (submitCmdBuffer d queue buf sink st).device.image_views = d.image_views ∧
    (submitCmdBuffer d queue buf sink st).device.graphics_pipelines =
      d.graphics_pipelines ∧
    (submitCmdBuffer d queue buf sink st).device.swapchains = d.swapchains := by
  have h : (submitCmdBuffer d queue buf sink st).device = d :=
    submitLoop_device d sink buf.commands SubmitAcc.initial st
  rw [h]
  exact ⟨rfl, rfl, rfl, rfl, rfl, rfl, rfl, rfl, rfl, rfl, rfl, rfl, rfl, rfl, rfl⟩

/- ### C2: which reports can abort a submission -/

theorem drawCheckSetLayouts_spec (d : sync_device) (sink : Sink)
    (sls : List Nat) (st : LogSt) :
    (∀ st2, drawCheckSetLayouts d sink sls st = LoopStep.ok st2 → st2 = st) ∧
    (∀ r st2, drawCheckSetLayouts d sink sls st = LoopStep.ret r st2 →
       ∃ a, st2.trace = st.trace ++ [a] ∧ r = a.response) := by
  induction sls with
  | nil =>
    constructor
    · intro st2 h
      cases h
      rfl
    · intro r st2 h
      cases h
  | cons sl rest ih =>
    constructor
    · intro st2 h
      unfold drawCheckSetLayouts at h
      cases hl : lookupM d.descriptor_set_layouts sl with
      | none => rw [hl] at h; cases h
      | some _ => rw [hl] at h; exact ih.1 st2 h
    · intro r st2 h
      unfold drawCheckSetLayouts at h
      cases hl : lookupM d.descriptor_set_layouts sl with
      | none =>
        rw [hl] at h
        cases h
        exact ⟨_, rfl, rfl⟩
      | some _ => rw [hl] at h; exact ih.2 r st2 h

theorem drawArrayLoop_spec (d : sync_device) (binding : descriptor_set_layout_binding)
    (current : sync_descriptor_set_descriptor_array) (sink : Sink)
    (idxs : List Nat) (st : LogSt) :
    (∀ st2, drawArrayLoop d binding current sink idxs st = LoopStep.ok st2 → st2 = st) ∧
    (∀ r st2, drawArrayLoop d binding current sink idxs st = LoopStep.ret r st2 →
       ∃ a, st2.trace = st.trace ++ [a] ∧ r = a.response) := by
  induction idxs with
  | nil =>
    constructor
    · intro st2 h
      cases h
      rfl
    · intro r st2 h
      cases h
  | cons i rest ih =>
    constructor
    · intro st2 h
      unfold drawArrayLoop at h
      repeat' split at h
      all_goals first
        | exact ih.1 st2 h
        | (cases h; rfl)
        | cases h
    · intro r st2 h
      unfold drawArrayLoop at h
      repeat' split at h
      all_goals first
        | exact ih.2 r st2 h
        | (cases h; exact ⟨_, rfl, rfl⟩)
        | cases h

theorem drawBindingsLoop_spec (d : sync_device) (ds : sync_descriptor_set)
    (sink : Sink) (bindings : List descriptor_set_layout_binding) :
    ∀ (binding_idx : Nat) (st : LogSt),
    (∀ st2, drawBindingsLoop d ds sink bindings binding_idx st = LoopStep.ok st2 →
       st2 = st) ∧
    (∀ r st2, drawBindingsLoop d ds sink bindings binding_idx st = LoopStep.ret r st2 →
       ∃ a, st2.trace = st.trace ++ [a] ∧ r = a.response) := by
  induction bindings with
  | nil =>
    intro bi st
    constructor
    · intro st2 h
      cases h
      rfl
    · intro r st2 h
      cases h
  | cons binding rest ih =>
    intro bi st
    constructor
    · intro st2 h
      unfold drawBindingsLoop at h
      cases hl : lookupM ds.bindings bi with
      | none => rw [hl] at h; cases h
      | some current =>
        rw [hl] at h
        try dsimp only at h
        cases ha : drawArrayLoop d binding current sink
            (List.range binding.descriptorCount) st with
        | ok stA =>
          rw [ha] at h
          try dsimp only at h
          have hA := (drawArrayLoop_spec d binding current sink _ st).1 stA ha
          rw [hA] at h
          exact (ih (bi + 1) st).1 st2 h
        | ret rA stA => rw [ha] at h; cases h
        | exn stA => rw [ha] at h; cases h
    · intro r st2 h
      unfold drawBindingsLoop at h
      cases hl : lookupM ds.bindings bi with
      | none =>
        rw [hl] at h
        try dsimp only at h
        cases h
        exact ⟨_, rfl, rfl⟩
      | some current =>
        rw [hl] at h
        try dsimp only at h
        cases ha : drawArrayLoop d binding current sink
            (List.range binding.descriptorCount) st with
        | ok stA =>
          rw [ha] at h
          try dsimp only at h
          have hA := (drawArrayLoop_spec d binding current sink _ st).1 stA ha
          rw [hA] at h
          exact (ih (bi + 1) st).2 r st2 h
        | ret rA stA =>
          rw [ha] at h
          try dsimp only at h
          cases h
          exact (drawArrayLoop_spec d binding current sink _ st).2 r st2 ha
        | exn stA => rw [ha] at h; cases h

theorem drawSetsLoop_spec (d : sync_device) (gbindings : MapL sync_descriptor_set)
    (sink : Sink) (sls : List Nat) :
    ∀ (set_idx : Nat) (st : LogSt),
    (∀ st2, drawSetsLoop d gbindings sink sls set_idx st = LoopStep.ok st2 →
       st2 = st) ∧
    (∀ r st2, drawSetsLoop d gbindings sink sls set_idx st = LoopStep.ret r st2 →
       ∃ a, st2.trace = st.trace ++ [a] ∧ r = a.response) := by
  induction sls with
  | nil =>
    intro si st
    constructor
    · intro st2 h
      cases h
      rfl
    · intro r st2 h
      cases h
  | cons sl rest ih =>
    intro si st
    constructor
    · intro st2 h
      unfold drawSetsLoop at h
      cases hl : lookupM d.descriptor_set_layouts sl with
      | none => rw [hl] at h; cases h
      | some layout =>
        rw [hl] at h
        try dsimp only at h
        cases hg : lookupM gbindings si with
        | none => rw [hg] at h; cases h
        | some ds =>
          rw [hg] at h
          try dsimp only at h
          cases hb : drawBindingsLoop d ds sink layout.bindings 0 st with
          | ok stB =>
            rw [hb] at h
            try dsimp only at h
            have hB := (drawBindingsLoop_spec d ds sink layout.bindings 0 st).1 stB hb
            rw [hB] at h
            exact (ih (si + 1) st).1 st2 h
          | ret rB stB => rw [hb] at h; cases h
          | exn stB => rw [hb] at h; cases h
    · intro r st2 h
      unfold drawSetsLoop at h
      cases hl : lookupM d.descriptor_set_layouts sl with
      | none =>
        rw [hl] at h
        try dsimp only at h
        cases h
        exact ⟨_, rfl, rfl⟩
      | some layout =>
        rw [hl] at h
        try dsimp only at h
        cases hg : lookupM gbindings si with
        | none =>
          rw [hg] at h
          try dsimp only at h
          cases h
          exact ⟨_, rfl, rfl⟩
        | some ds =>
          rw [hg] at h
          try dsimp only at h
          cases hb : drawBindingsLoop d ds sink layout.bindings 0 st with
          | ok stB =>
            rw [hb] at h
            try dsimp only at h
            have hB := (drawBindingsLoop_spec d ds sink layout.bindings 0 st).1 stB hb
            rw [hB] at h
            exact (ih (si + 1) st).2 r st2 h
          | ret rB stB =>
            rw [hb] at h
            try dsimp only at h
            cases h
            exact (drawBindingsLoop_spec d ds sink layout.bindings 0 st).2 r st2 hb
          | exn stB => rw [hb] at h; cases h

theorem bindDescSetsLoop_spec (d : sync_device) (bindPoint : VkPipelineBindPoint)
    (firstSet : Nat) (sink : Sink) (sets : List Nat) :
    ∀ (i : Nat) (acc : SubmitAcc) (st : LogSt),
    (∀ acc2 st2, bindDescSetsLoop d bindPoint firstSet sink sets i acc st =
       Sum.inl (acc2, st2) → st2 = st) ∧
    (∀ r st2, bindDescSetsLoop d bindPoint firstSet sink sets i acc st =
       Sum.inr (r, st2) →
       ∃ a, st2.trace = st.trace ++ [a] ∧ r = a.response) := by
  induction sets with
  | nil =>
    intro i acc st
    constructor
    · intro acc2 st2 h
      cases h
      rfl
    · intro r st2 h
      cases h
  | cons dsh rest ih =>
    intro i acc st
    constructor
    · intro acc2 st2 h
      unfold bindDescSetsLoop at h
      cases hl : lookupM d.descriptor_sets dsh with
      | none => rw [hl] at h; cases h
      | some ds =>
        rw [hl] at h
        dsimp only at h
        exact (ih (i + 1) _ st).1 acc2 st2 h
    · intro r st2 h
      unfold bindDescSetsLoop at h
      cases hl : lookupM d.descriptor_sets dsh with
      | none =>
        rw [hl] at h
        cases h
        exact ⟨_, rfl, rfl⟩
      | some ds =>
        rw [hl] at h
        dsimp only at h
        exact (ih (i + 1) _ st).2 r st2 h

theorem single_report_added (n : DbgLevel) (sink : Sink) (st : LogSt) :
    ∃ added, (logGeneric n sink st).2.trace = st.trace ++ added ∧
      (logGeneric n sink st).1 = added.any (fun a => a.response) :=
  ⟨[⟨n, DbgLevel.debug, sink st.trace.length⟩], rfl, by simp [logGeneric]⟩

/-- The result of submitCmdBuffer's command loop, on exception-free runs,
is exactly "some report issued during the loop got a true response". -/
theorem submitLoop_spec (d : sync_device) (sink : Sink) (cmds : List SyncCmd) :
    ∀ (acc0 : SubmitAcc) (st : LogSt),
    (submitLoop d sink cmds acc0 st).exn = false →
    ∃ added, (submitLoop d sink cmds acc0 st).log.trace = st.trace ++ added ∧
      (submitLoop d sink cmds acc0 st).result = added.any (fun a => a.response) := by
  induction cmds with
  | nil =>
    intro acc0 st _
    exact ⟨[], by simp [submitLoop], rfl⟩
  | cons cmd rest ih =>
    intro acc0 st
    unfold submitLoop
    try dsimp only
    cases hbd : cmd.as_bind_descriptor_sets with
    | some v =>
      obtain ⟨bp, l, firstSet, sets⟩ := v
      try dsimp only
      cases hbl : bindDescSetsLoop d bp firstSet sink sets 0
          (applyBindPipeline cmd acc0) st with
      | inr rv =>
        obtain ⟨r, st2⟩ := rv
        try dsimp only
        intro _
        obtain ⟨a, ht, hr⟩ :=
          (bindDescSetsLoop_spec d bp firstSet sink sets 0
            (applyBindPipeline cmd acc0) st).2 r st2 hbl
        exact ⟨[a], by rw [ht], by simp [hr]⟩
      | inl av =>
        obtain ⟨acc2, st2⟩ := av
        try dsimp only
        have h2 :=
          (bindDescSetsLoop_spec d bp firstSet sink sets 0
            (applyBindPipeline cmd acc0) st).1 acc2 st2 hbl
        rw [h2]
        exact ih acc2 st
    | none =>
      try dsimp only
      cases hd : cmd.is_draw with
      | false =>
        rw [if_neg (by simp)]
        exact ih (applyBindPipeline cmd acc0) st
      | true =>
        rw [if_pos rfl]
        by_cases hz : (applyBindPipeline cmd acc0).graphics_pipeline = 0
        · rw [if_pos hz]
          intro _
          exact single_report_added DbgLevel.error sink st
        · rw [if_neg hz]
          cases hgp : lookupM d.graphics_pipelines
              (applyBindPipeline cmd acc0).graphics_pipeline with
          | none =>
            try dsimp only
            intro _
            exact single_report_added DbgLevel.error sink st
          | some pipeline =>
            try dsimp only
            cases hpl : lookupM d.pipeline_layouts pipeline.layout with
            | none =>
              try dsimp only
              intro _
              exact single_report_added DbgLevel.error sink st
            | some pipeline_layout =>
              try dsimp only
              cases hcs : drawCheckSetLayouts d sink pipeline_layout.setLayouts st with
              | ret r stC =>
                try dsimp only
                intro _
                obtain ⟨a, ht, hr⟩ :=
                  (drawCheckSetLayouts_spec d sink pipeline_layout.setLayouts st).2
                    r stC hcs
                exact ⟨[a], by rw [ht], by simp [hr]⟩
              | exn stC =>
                try dsimp only
                intro hexn
                simp at hexn
              | ok stC =>
                try dsimp only
                have hC :=
                  ((drawCheckSetLayouts_spec d sink pipeline_layout.setLayouts st).1
                    stC hcs).symm
                subst hC
                cases hss : drawSetsLoop d (applyBindPipeline cmd acc0).graphics_bindings
                    sink pipeline_layout.setLayouts 0 st with
                | ret r stS =>
                  try dsimp only
                  intro _
                  obtain ⟨a, ht, hr⟩ :=
                    (drawSetsLoop_spec d (applyBindPipeline cmd acc0).graphics_bindings
                      sink pipeline_layout.setLayouts 0 st).2 r stS hss
                  exact ⟨[a], by rw [ht], by simp [hr]⟩
                | exn stS =>
                  try dsimp only
                  intro hexn
                  simp at hexn
                | ok stS =>
                  try dsimp only
                  have hS :=
                    ((drawSetsLoop_spec d (applyBindPipeline cmd acc0).graphics_bindings
                      sink pipeline_layout.setLayouts 0 st).1 stS hss).symm
                  subst hS
                  cases hi : (logInfo sink st).1 with
                  | true =>
                    rw [if_pos rfl]
                    intro _
                    refine ⟨[⟨DbgLevel.info, DbgLevel.debug, sink st.trace.length⟩],
                      rfl, ?_⟩
                    simp only [List.any_cons, List.any_nil, Bool.or_false]
                    exact hi.symm
                  | false =>
                    rw [if_neg (by simp)]
                    intro hexn
                    obtain ⟨added2, h1, h2⟩ := ih (applyBindPipeline cmd acc0)
                      (logInfo sink st).2 hexn
                    refine ⟨⟨DbgLevel.info, DbgLevel.debug,
                      sink st.trace.length⟩ :: added2, ?_, ?_⟩
                    · rw [h1]
                      simp [logInfo, logGeneric]
                    · rw [h2]
                      simp only [List.any_cons]
                      have hsf : sink st.trace.length = false := hi
                      rw [hsf]
                      simp

theorem queueSubmitLoop_spec (d : sync_device) (queue : Nat) (sink : Sink)
    (cbs : List Nat) :
    ∀ (skip : Bool) (st : LogSt),
    (queueSubmitLoop d queue sink cbs skip st).2.2 = false →
    ∃ added,
      (queueSubmitLoop d queue sink cbs skip st).2.1.trace = st.trace ++ added ∧
      (queueSubmitLoop d queue sink cbs skip st).1 =
        (skip || added.any (fun a => a.response)) := by
  induction cbs with
  | nil =>
    intro skip st _
    exact ⟨[], by simp [queueSubmitLoop], by simp [queueSubmitLoop]⟩
  | cons cb rest ih =>
    intro skip st
    unfold queueSubmitLoop
    dsimp only
    cases hcb : lookupM d.command_buffers cb with
    | none =>
      try dsimp only
      intro hexn
      obtain ⟨added, h1, h2⟩ := ih _ _ hexn
      refine ⟨⟨DbgLevel.debug, DbgLevel.debug, sink st.trace.length⟩ ::
        ⟨DbgLevel.error, DbgLevel.debug, sink (st.trace.length + 1)⟩ :: added, ?_, ?_⟩
      · rw [h1]
        simp [logDebug, logError, logGeneric]
      · rw [h2]
        simp [logDebug, logError, logGeneric, Bool.or_assoc]
    | some buf =>
      try dsimp only
      cases hex : (submitCmdBuffer d queue buf sink
          (logInfo sink (logDebug sink st).2).2).exn with
      | true =>
        rw [if_pos rfl]
        intro hexn
        simp at hexn
      | false =>
        rw [if_neg (by simp)]
        intro hexn
        obtain ⟨addedS, hS1, hS2⟩ :=
          submitLoop_spec d sink buf.commands SubmitAcc.initial
            (logInfo sink (logDebug sink st).2).2 hex
        obtain ⟨added3, h1, h2⟩ := ih _ _ hexn
        refine ⟨⟨DbgLevel.debug, DbgLevel.debug, sink st.trace.length⟩ ::
          ⟨DbgLevel.info, DbgLevel.debug, sink (st.trace.length + 1)⟩ ::
          (addedS ++ added3), ?_, ?_⟩
        · rw [h1]
          unfold submitCmdBuffer
          rw [hS1]
          simp [logDebug, logInfo, logGeneric]
        · rw [h2]
          unfold submitCmdBuffer
          rw [hS2]
          simp [logDebug, logInfo, logGeneric, Bool.or_assoc, List.any_append]

theorem queueSubmitSubmits_spec (d : sync_device) (queue : Nat) (sink : Sink)
    (subs : List (List Nat)) :
    ∀ (skip : Bool) (st : LogSt),
    (queueSubmitSubmits d queue sink subs skip st).2.2 = false →
    ∃ added,
      (queueSubmitSubmits d queue sink subs skip st).2.1.trace = st.trace ++ added ∧
      (queueSubmitSubmits d queue sink subs skip st).1 =
        (skip || added.any (fun a => a.response)) := by
  induction subs with
  | nil =>
    intro skip st _
    exact ⟨[], by simp [queueSubmitSubmits], by simp [queueSubmitSubmits]⟩
  | cons s rest ih =>
    intro skip st
    unfold queueSubmitSubmits
    cases hql : queueSubmitLoop d queue sink s skip st with
    | mk skip2 v =>
      obtain ⟨st2, ex⟩ := v
      cases ex with
      | true =>
        intro hexn
        simp at hexn
      | false =>
        dsimp only
        intro hexn
        have hq : (queueSubmitLoop d queue sink s skip st).2.2 = false := by
          rw [hql]
        obtain ⟨added1, h1, h2⟩ := queueSubmitLoop_spec d queue sink s skip st hq
        rw [hql] at h1 h2
        dsimp only at h1 h2
        obtain ⟨added2, h3, h4⟩ := ih skip2 st2 hexn
        refine ⟨added1 ++ added2, ?_, ?_⟩
        · rw [h3, h1]
          simp
        · rw [h4, h2]
          simp [Bool.or_assoc, List.any_append]

/-- C2 counterexample: a concrete submission on which the only
true-returning report is the per-draw-free INFO report ("Command buffer
contents") — nominally INFO, not ERROR — yet the submission is aborted:
vkQueueSubmit returns VK_ERROR_VALIDATION_FAILED_EXT and suppresses the
pass-through call, because `skipCall |=` accumulates the response of every
report regardless of severity. -/
theorem info_report_true_aborts_submission :
    (vkQueueSubmit
      { sync_device.empty with
          command_pools := [(1, ⟨1, [2]⟩)]
          command_buffers := [(2, sync_command_buffer.mk 2 1 VkCommandBufferLevel.primary
            sync_command_buffer_state.EXECUTABLE 0 0 0 0 false 0 0 [])] }
      9 [[2]] (fun idx => idx == 2) LogSt.empty).aborted = true ∧
    (vkQueueSubmit
      { sync_device.empty with
          command_pools := [(1, ⟨1, [2]⟩)]
          command_buffers := [(2, sync_command_buffer.mk 2 1 VkCommandBufferLevel.primary
            sync_command_buffer_state.EXECUTABLE 0 0 0 0 false 0 0 [])] }
      9 [[2]] (fun idx => idx == 2) LogSt.empty).passThrough = false ∧
    (vkQueueSubmit
      { sync_device.empty with
          command_pools := [(1, ⟨1, [2]⟩)]
          command_buffers := [(2, sync_command_buffer.mk 2 1 VkCommandBufferLevel.primary
            sync_command_buffer_state.EXECUTABLE 0 0 0 0 false 0 0 [])] }
      9 [[2]] (fun idx => idx == 2) LogSt.empty).log.trace =
      [⟨DbgLevel.debug, DbgLevel.debug, false⟩,
       ⟨DbgLevel.debug, DbgLevel.debug, false⟩,
       ⟨DbgLevel.info, DbgLevel.debug, true⟩] ∧
    ((vkQueueSubmit
      { sync_device.empty with
          command_pools := [(1, ⟨1, [2]⟩)]
          command_buffers := [(2, sync_command_buffer.mk 2 1 VkCommandBufferLevel.primary
            sync_command_buffer_state.EXECUTABLE 0 0 0 0 false 0 0 [])] }
      9 [[2]] (fun idx => idx == 2) LogSt.empty).log.trace.all
        (fun r => !r.response || (r.nominal == DbgLevel.info))) = true := by
  refine ⟨by decide, by decide, by decide, by decide⟩

/-- C2 (amended): during submission validation, `skipCall |=` accumulates
the response of every report regardless of its nominal severity, so — on
exception-free runs — a true return from ANY report (DEBUG, INFO, ERROR,
...) aborts the submission: vkQueueSubmit returns
VK_ERROR_VALIDATION_FAILED_EXT iff some report issued during the call got
a true response, and the pass-through call happens exactly when the
submission is not aborted. -/
theorem queueSubmit_abort_iff_any_response_true
    (d : sync_device) (queue : Nat) (pSubmits : List (List Nat)) (sink : Sink) :
    (vkQueueSubmit d queue pSubmits sink LogSt.empty).exn = false →
    (((vkQueueSubmit d queue pSubmits sink LogSt.empty).aborted = true ↔
       ∃ r ∈ (vkQueueSubmit d queue pSubmits sink LogSt.empty).log.trace,
         r.response = true) ∧
     ((vkQueueSubmit d queue pSubmits sink LogSt.empty).passThrough = true ↔
       (vkQueueSubmit d queue pSubmits sink LogSt.empty).aborted = false)) := by
  unfold vkQueueSubmit
  dsimp only
  cases h0 : (logDebug sink LogSt.empty).1 with
  | true =>
    rw [if_pos rfl]
    intro _
    refine ⟨⟨fun _ => ⟨⟨DbgLevel.debug, DbgLevel.debug, sink 0⟩, ?_, h0⟩,
      fun _ => rfl⟩, by simp⟩
    simp [logDebug, logGeneric, LogSt.empty]
  | false =>
    rw [if_neg (by simp)]
    cases hq : queueSubmitSubmits d queue sink pSubmits false (logDebug sink LogSt.empty).2 with
    | mk skip v =>
      obtain ⟨st2, ex⟩ := v
      cases ex with
      | true =>
        intro hexn
        simp at hexn
      | false =>
        dsimp only
        intro _
        have hq2 : (queueSubmitSubmits d queue sink pSubmits false
            (logDebug sink LogSt.empty).2).2.2 = false := by rw [hq]
        obtain ⟨added, h1, h2⟩ := queueSubmitSubmits_spec d queue sink pSubmits
          false (logDebug sink LogSt.empty).2 hq2
        rw [hq] at h1 h2
        dsimp only at h1 h2
        rw [Bool.false_or] at h2
        cases hsk : skip with
        | true =>
          rw [if_pos rfl]
          refine ⟨⟨fun _ => ?_, fun _ => rfl⟩, by simp⟩
          rw [hsk] at h2
          obtain ⟨r, hrmem, hrresp⟩ := List.any_eq_true.mp h2.symm
          exact ⟨r, by rw [h1]; exact List.mem_append_right _ hrmem, hrresp⟩
        | false =>
          rw [if_neg (by simp)]
          refine ⟨⟨fun hab => by simp at hab, fun hex2 => ?_⟩, by simp⟩
          obtain ⟨r, hrmem, hrresp⟩ := hex2
          rw [h1] at hrmem
          rcases List.mem_append.mp hrmem with hr0 | hradd
          · have hr : r = ⟨DbgLevel.debug, DbgLevel.debug, sink 0⟩ := by
              simpa [logDebug, logGeneric, LogSt.empty] using hr0
            rw [hr] at hrresp
            have h0f : sink 0 = false := h0
            rw [h0f] at hrresp
            cases hrresp
          · have hany : added.any (fun a => a.response) = true :=
              List.any_eq_true.mpr ⟨r, hradd, hrresp⟩
            rw [hsk] at h2
            rw [← h2] at hany
            cases hany

/-- C2 witness: the amended theorem applied at the counterexample's
concrete device, submission and sink (hypothesis: that run is
exception-free). -/
theorem queueSubmit_abort_iff_any_response_true_witness :
    ((vkQueueSubmit
      { sync_device.empty with
          command_pools := [(1, ⟨1, [2]⟩)]
          command_buffers := [(2, sync_command_buffer.mk 2 1 VkCommandBufferLevel.primary
            sync_command_buffer_state.EXECUTABLE 0 0 0 0 false 0 0 [])] }
      9 [[2]] (fun idx => idx == 2) LogSt.empty).aborted = true ↔
     ∃ r ∈ (vkQueueSubmit
      { sync_device.empty with
          command_pools := [(1, ⟨1, [2]⟩)]
          command_buffers := [(2, sync_command_buffer.mk 2 1 VkCommandBufferLevel.primary
            sync_command_buffer_state.EXECUTABLE 0 0 0 0 false 0 0 [])] }
      9 [[2]] (fun idx => idx == 2) LogSt.empty).log.trace, r.response = true) :=
  (queueSubmit_abort_iff_any_response_true
    { sync_device.empty with
        command_pools := [(1, ⟨1, [2]⟩)]
        command_buffers := [(2, sync_command_buffer.mk 2 1 VkCommandBufferLevel.primary
          sync_command_buffer_state.EXECUTABLE 0 0 0 0 false 0 0 [])] }
    9 [[2]] (fun idx => idx == 2) (by decide)).1

/- ### C1: barrier soundness of the reachability checker

sync.h declares the graph machinery (`SyncValidator::findPath`,
`SyncEdgeSet`, `mPrecedingEdges`/`mFollowingEdges`, `addNode`) but no
revision in the source tree implements it — neither sync_validate.cpp nor
the draft in sync_to_string.cpp builds barrier edges or searches for
paths.  The checker below is therefore modelled from the spec (§4.5,
§4.6, §3 "SyncEdge/SyncEdgeSet"). -/

namespace SpecModel

/-- Modelled from the spec: the per-submission command stream as the graph
builder sees it (`SyncValidator::submitCmdBuffer` is declared but the
graph-building body is missing from the source).  An action command
performs one memory access (a write or a read) on a region at one pipeline
stage; a barrier command carries its source and destination stage masks
(bit masks over stage numbers).  A command's sequence id is its position
in the list (spec §4.4: sequence ids are assigned in recording order
during a single graph-build pass). -/
inductive SCmd
| action (isWrite : Bool) (stage : Nat) (region : Nat)
| barrier (srcStageMask dstStageMask : Nat)
deriving DecidableEq, Repr

def isActionAt (buf : List SCmd) (i : Nat) : Bool :=
  match buf.get? i with
  | some (SCmd.action _ _ _) => true
  | _ => false

def isWriteAt (buf : List SCmd) (i : Nat) : Bool :=
  match buf.get? i with
  | some (SCmd.action w _ _) => w
  | _ => false

def stageAt (buf : List SCmd) (i : Nat) : Nat :=
  match buf.get? i with
  | some (SCmd.action _ s _) => s
  | _ => 0

def regionAt (buf : List SCmd) (i : Nat) : Nat :=
  match buf.get? i with
  | some (SCmd.action _ _ r) => r
  | _ => 0

def isBarrierAt (buf : List SCmd) (i : Nat) : Bool :=
  match buf.get? i with
  | some (SCmd.barrier _ _) => true
  | _ => false

def srcMaskAt (buf : List SCmd) (i : Nat) : Nat :=
  match buf.get? i with
  | some (SCmd.barrier src _) => src
  | _ => 0

def dstMaskAt (buf : List SCmd) (i : Nat) : Nat :=
  match buf.get? i with
  | some (SCmd.barrier _ dst) => dst
  | _ => 0

/-- Modelled from the spec: the SyncNode kinds the claim needs (spec §3):
a memory-access node and an ACTION_CMD_STAGE node per action command, and
the SYNC_CMD_SRC / SYNC_CMD_DST nodes per barrier command. -/
inductive SNode
| mem (seq : Nat)
| stage (seq : Nat)
| src (seq : Nat)
| dst (seq : Nat)
deriving DecidableEq, Repr

/-- Modelled from the spec: stage-mask membership ("src stage mask
includes S"): bit `s` of the mask is set. -/
def maskHasStage (mask s : Nat) : Bool := Nat.testBit mask s

/-- Modelled from the spec: the edge relation (spec §4.5 and §3
SyncEdge/SyncEdgeSet).  A memory access happens "at" its stage node
(two-way edge); a barrier's SRC node receives a bounded edge from every
action-stage node with a smaller sequence id whose stage is in the
barrier's source stage mask, SRC connects to DST, and DST has a bounded
edge to every action-stage node with a larger sequence id whose stage is
in the destination stage mask. -/
def specEdge (buf : List SCmd) : SNode → SNode → Bool
  | SNode.mem i, SNode.stage j => i == j && isActionAt buf i
  | SNode.stage i, SNode.mem j => i == j && isActionAt buf i
  | SNode.stage i, SNode.src j =>
    decide (i < j) && isActionAt buf i && isBarrierAt buf j &&
      maskHasStage (srcMaskAt buf j) (stageAt buf i)
  | SNode.src j, SNode.dst k => j == k && isBarrierAt buf j
  | SNode.dst j, SNode.stage k =>
    decide (j < k) && isBarrierAt buf j && isActionAt buf k &&
      maskHasStage (dstMaskAt buf j) (stageAt buf k)
  | _, _ => false

def allNodes (buf : List SCmd) : List SNode :=
  (List.range buf.length).flatMap
    (fun i => [SNode.mem i, SNode.stage i, SNode.src i, SNode.dst i])

/-- Modelled from the spec: one expansion step of the reachability search,
the lazily-evaluated bounded edges included (spec §4.6: "standard
bidirectional graph search ... computed lazily"). -/
def reachStep (buf : List SCmd) (frontier : List SNode) : List SNode :=
  frontier ++ (allNodes buf).filter (fun n => frontier.any (fun m => specEdge buf m n))

def reachN (buf : List SCmd) : Nat → List SNode → List SNode
  | 0, frontier => frontier
  | n + 1, frontier => reachN buf n (reachStep buf frontier)

/-- Modelled from the spec: `SyncValidator::findPath` (declared at sync.h
858 with no body in the source tree).  The search is bounded by the total
node count (spec §4.6: "bound the search by total node count"); the graph
has 4·length nodes, so iterating the expansion step that often saturates
the reachable set. -/
def findPath (buf : List SCmd) (a b : SNode) : Bool :=
  decide (b ∈ reachN buf (4 * buf.length + 4) [a])

/-- Modelled from the spec: two accesses conflict when their regions
overlap and at least one is a write (spec §4.6).  Abstract regions
overlap exactly when equal. -/
def conflicting (buf : List SCmd) (i k : Nat) : Bool :=
  isActionAt buf i && isActionAt buf k &&
    (regionAt buf i == regionAt buf k) && (isWriteAt buf i || isWriteAt buf k)

/-- Modelled from the spec: the race reports of the Reachability Checker
(spec §4.6): for every conflicting pair with no proven ordering in either
direction, report both accesses and the region. -/
def races (buf : List SCmd) : List (Nat × Nat × Nat) :=
  (List.range buf.length).flatMap (fun i =>
    (List.range buf.length).filterMap (fun k =>
      if i < k ∧ conflicting buf i k = true ∧
          findPath buf (SNode.mem i) (SNode.mem k) = false ∧
          findPath buf (SNode.mem k) (SNode.mem i) = false then
        some (i, k, regionAt buf i)
      else none))

end SpecModel

namespace SpecModel

theorem lt_length_of_getq_eq_some {α : Type} {l : List α} {i : Nat} {a : α}
    (h : l.get? i = some a) : i < l.length := by
  by_contra hc
  rw [List.get?_eq_none.mpr (Nat.le_of_not_lt hc)] at h
  cases h

theorem mem_reachStep_left {buf : List SCmd} {frontier : List SNode} {n : SNode}
    (h : n ∈ frontier) : n ∈ reachStep buf frontier :=
  List.mem_append_left _ h

theorem mem_reachStep_edge {buf : List SCmd} {frontier : List SNode} {m n : SNode}
    (hm : m ∈ frontier) (he : specEdge buf m n = true) (hn : n ∈ allNodes buf) :
    n ∈ reachStep buf frontier :=
  List.mem_append_right _
    (List.mem_filter.mpr ⟨hn, List.any_eq_true.mpr ⟨m, hm, he⟩⟩)

theorem subset_reachN (buf : List SCmd) :
    ∀ (N : Nat) (frontier : List SNode) (n : SNode),
      n ∈ frontier → n ∈ reachN buf N frontier
  | 0, _, _, h => h
  | N + 1, f, n, h => subset_reachN buf N _ n (mem_reachStep_left h)

theorem reachN_add (buf : List SCmd) :
    ∀ (m n : Nat) (f : List SNode),
      reachN buf (m + n) f = reachN buf n (reachN buf m f)
  | 0, n, f => by simp [reachN]
  | m + 1, n, f => by
    have harith : m + 1 + n = (m + n) + 1 := by omega
    rw [harith]
    show reachN buf (m + n) (reachStep buf f) = _
    rw [reachN_add buf m n (reachStep buf f)]
    rfl

theorem mem_allNodes {buf : List SCmd} {i : Nat} (h : i < buf.length) :
    SNode.mem i ∈ allNodes buf ∧ SNode.stage i ∈ allNodes buf ∧
    SNode.src i ∈ allNodes buf ∧ SNode.dst i ∈ allNodes buf := by
  refine ⟨?_, ?_, ?_, ?_⟩ <;>
    exact List.mem_flatMap.mpr ⟨i, List.mem_range.mpr h, by simp⟩

/-- A set of nodes closed under the spec edges when no covering barrier
blocks the last step: the access at `i`, its stage node, and the SRC/DST
nodes of every later barrier whose source mask contains `S`. -/
def reachClosed (buf : List SCmd) (i S : Nat) : SNode → Bool
  | SNode.mem m => m == i
  | SNode.stage m => m == i
  | SNode.src j =>
    decide (i < j) && isBarrierAt buf j && maskHasStage (srcMaskAt buf j) S
  | SNode.dst j =>
    decide (i < j) && isBarrierAt buf j && maskHasStage (srcMaskAt buf j) S

theorem reachClosed_step (buf : List SCmd) (i S : Nat)
    (hstage : stageAt buf i = S)
    (hblock : ∀ j m, i < j → isBarrierAt buf j = true →
       maskHasStage (srcMaskAt buf j) S = true → j < m →
       isActionAt buf m = true →
       maskHasStage (dstMaskAt buf j) (stageAt buf m) = true → False) :
    ∀ n m, reachClosed buf i S n = true → specEdge buf n m = true →
      reachClosed buf i S m = true := by
  intro n m hc he
  cases n with
  | mem a =>
    cases m with
    | mem b => exact Bool.noConfusion he
    | src b => exact Bool.noConfusion he
    | dst b => exact Bool.noConfusion he
    | stage b =>
      have he2 : ((a == b) && isActionAt buf a) = true := he
      simp only [Bool.and_eq_true, beq_iff_eq] at he2
      have hc2 : (a == i) = true := hc
      show (b == i) = true
      rw [← he2.1]
      exact hc2
  | stage a =>
    cases m with
    | stage b => exact Bool.noConfusion he
    | dst b => exact Bool.noConfusion he
    | mem b =>
      have he2 : ((a == b) && isActionAt buf a) = true := he
      simp only [Bool.and_eq_true, beq_iff_eq] at he2
      have hc2 : (a == i) = true := hc
      show (b == i) = true
      rw [← he2.1]
      exact hc2
    | src b =>
      have he2 : (decide (a < b) && isActionAt buf a && isBarrierAt buf b &&
          maskHasStage (srcMaskAt buf b) (stageAt buf a)) = true := he
      simp only [Bool.and_eq_true, decide_eq_true_eq] at he2
      obtain ⟨⟨⟨hab, _⟩, hbar⟩, hbit⟩ := he2
      have hc2 : a = i := by
        have : (a == i) = true := hc
        exact beq_iff_eq.mp this
      subst hc2
      rw [hstage] at hbit
      show (decide (a < b) && isBarrierAt buf b &&
        maskHasStage (srcMaskAt buf b) S) = true
      simp only [Bool.and_eq_true, decide_eq_true_eq]
      exact ⟨⟨hab, hbar⟩, hbit⟩
  | src a =>
    cases m with
    | mem b => exact Bool.noConfusion he
    | stage b => exact Bool.noConfusion he
    | src b => exact Bool.noConfusion he
    | dst b =>
      have he2 : ((a == b) && isBarrierAt buf a) = true := he
      simp only [Bool.and_eq_true, beq_iff_eq] at he2
      have hc2 : (decide (i < a) && isBarrierAt buf a &&
          maskHasStage (srcMaskAt buf a) S) = true := hc
      show (decide (i < b) && isBarrierAt buf b &&
        maskHasStage (srcMaskAt buf b) S) = true
      rw [← he2.1]
      exact hc2
  | dst a =>
    cases m with
    | mem b => exact Bool.noConfusion he
    | src b => exact Bool.noConfusion he
    | dst b => exact Bool.noConfusion he
    | stage b =>
      have he2 : (decide (a < b) && isBarrierAt buf a && isActionAt buf b &&
          maskHasStage (dstMaskAt buf a) (stageAt buf b)) = true := he
      simp only [Bool.and_eq_true, decide_eq_true_eq] at he2
      obtain ⟨⟨⟨hab, hbar⟩, hact⟩, hbit⟩ := he2
      have hc2 : (decide (i < a) && isBarrierAt buf a &&
          maskHasStage (srcMaskAt buf a) S) = true := hc
      simp only [Bool.and_eq_true, decide_eq_true_eq] at hc2
      exact absurd (hblock a b hc2.1.1 hc2.1.2 hc2.2 hab hact hbit) not_false

theorem reachN_closed (buf : List SCmd) (i S : Nat)
    (hstep : ∀ n m, reachClosed buf i S n = true → specEdge buf n m = true →
       reachClosed buf i S m = true) :
    ∀ (N : Nat) (frontier : List SNode),
      (∀ n ∈ frontier, reachClosed buf i S n = true) →
      ∀ n ∈ reachN buf N frontier, reachClosed buf i S n = true
  | 0, _, hf, n, hn => hf n hn
  | N + 1, f, hf, n, hn =>
    reachN_closed buf i S hstep N (reachStep buf f)
      (by
        intro x hx
        rcases List.mem_append.mp hx with h | h
        · exact hf x h
        · obtain ⟨hxall, hedge⟩ := List.mem_filter.mp h
          obtain ⟨m, hm, he⟩ := List.any_eq_true.mp hedge
          exact hstep m x (hf m hm) he)
      n hn

theorem findPath_eq_false_of_closed {buf : List SCmd} {i S : Nat} {a b : SNode}
    (hstep : ∀ n m, reachClosed buf i S n = true → specEdge buf n m = true →
       reachClosed buf i S m = true)
    (ha : reachClosed buf i S a = true) (hb : reachClosed buf i S b = false) :
    findPath buf a b = false := by
  simp only [findPath, decide_eq_false_iff_not]
  intro hmem
  have hcl := reachN_closed buf i S hstep (4 * buf.length + 4) [a]
    (by
      intro n hn
      rw [List.mem_singleton] at hn
      rw [hn]
      exact ha)
    b hmem
  rw [hb] at hcl
  cases hcl

end SpecModel

namespace SpecModel

/-- C1 (modelled from the spec, since `SyncValidator::findPath` and the
barrier edge construction are declared in sync.h but implemented nowhere
in the source tree): for a submitted command buffer whose action commands
are exactly a write of region R at stage S1 (sequence i) and a later read
of R at stage S2 (sequence k), with any number of pipeline barriers
recorded around them: if some barrier recorded strictly between them has
S1 in its source stage mask and S2 in its destination stage mask, the
reachability checker connects the write to the read and reports no race;
if no such barrier exists, neither access reaches the other and the
checker reports exactly this race, naming both accesses and the region. -/
theorem barrier_soundness (buf : List SCmd) (i k S1 S2 R : Nat)
    (hi : buf.get? i = some (SCmd.action true S1 R))
    (hk : buf.get? k = some (SCmd.action false S2 R))
    (hik : i < k)
    (honly : ∀ m, isActionAt buf m = true → m = i ∨ m = k) :
    ((∃ j src dst, buf.get? j = some (SCmd.barrier src dst) ∧ i < j ∧ j < k ∧
        maskHasStage src S1 = true ∧ maskHasStage dst S2 = true) →
      findPath buf (SNode.mem i) (SNode.mem k) = true ∧ races buf = []) ∧
    ((¬ ∃ j src dst, buf.get? j = some (SCmd.barrier src dst) ∧ i < j ∧ j < k ∧
        maskHasStage src S1 = true ∧ maskHasStage dst S2 = true) →
      findPath buf (SNode.mem i) (SNode.mem k) = false ∧
      findPath buf (SNode.mem k) (SNode.mem i) = false ∧
      (i, k, R) ∈ races buf) := by
  have hilen : i < buf.length := lt_length_of_getq_eq_some hi
  have hklen : k < buf.length := lt_length_of_getq_eq_some hk
  have hacti : isActionAt buf i = true := by unfold isActionAt; rw [hi]
  have hactk : isActionAt buf k = true := by unfold isActionAt; rw [hk]
  have hstagei : stageAt buf i = S1 := by unfold stageAt; rw [hi]
  have hstagek : stageAt buf k = S2 := by unfold stageAt; rw [hk]
  have hregi : regionAt buf i = R := by unfold regionAt; rw [hi]
  have hregk : regionAt buf k = R := by unfold regionAt; rw [hk]
  have hwi : isWriteAt buf i = true := by unfold isWriteAt; rw [hi]
  constructor
  · rintro ⟨j, src, dst, hj, hij, hjk, hsrc, hdst⟩
    have hjlen : j < buf.length := lt_length_of_getq_eq_some hj
    have hbarj : isBarrierAt buf j = true := by unfold isBarrierAt; rw [hj]
    have hsrcj : srcMaskAt buf j = src := by unfold srcMaskAt; rw [hj]
    have hdstj : dstMaskAt buf j = dst := by unfold dstMaskAt; rw [hj]
    have e1 : specEdge buf (SNode.mem i) (SNode.stage i) = true := by
      show ((i == i) && isActionAt buf i) = true
      simp [hacti]
    have e2 : specEdge buf (SNode.stage i) (SNode.src j) = true := by
      show (decide (i < j) && isActionAt buf i && isBarrierAt buf j &&
        maskHasStage (srcMaskAt buf j) (stageAt buf i)) = true
      simp [hij, hacti, hbarj, hsrcj, hstagei, hsrc]
    have e3 : specEdge buf (SNode.src j) (SNode.dst j) = true := by
      show ((j == j) && isBarrierAt buf j) = true
      simp [hbarj]
    have e4 : specEdge buf (SNode.dst j) (SNode.stage k) = true := by
      show (decide (j < k) && isBarrierAt buf j && isActionAt buf k &&
        maskHasStage (dstMaskAt buf j) (stageAt buf k)) = true
      simp [hjk, hbarj, hactk, hdstj, hstagek, hdst]
    have e5 : specEdge buf (SNode.stage k) (SNode.mem k) = true := by
      show ((k == k) && isActionAt buf k) = true
      simp [hactk]
    have m1 : SNode.stage i ∈ reachStep buf [SNode.mem i] :=
      mem_reachStep_edge (List.mem_singleton_self _) e1 (mem_allNodes hilen).2.1
    have m2 := mem_reachStep_edge m1 e2 (mem_allNodes hjlen).2.2.1
    have m3 := mem_reachStep_edge m2 e3 (mem_allNodes hjlen).2.2.2
    have m4 := mem_reachStep_edge m3 e4 (mem_allNodes hklen).2.1
    have m5 := mem_reachStep_edge m4 e5 (mem_allNodes hklen).1
    have h5 : SNode.mem k ∈ reachN buf 5 [SNode.mem i] := m5
    have hN : SNode.mem k ∈ reachN buf (4 * buf.length + 4) [SNode.mem i] := by
      have harith : 4 * buf.length + 4 = 5 + (4 * buf.length - 1) := by omega
      rw [harith, reachN_add]
      exact subset_reachN buf _ _ _ h5
    have hfp : findPath buf (SNode.mem i) (SNode.mem k) = true := by
      simp only [findPath]
      exact decide_eq_true hN
    refine ⟨hfp, ?_⟩
    rw [List.eq_nil_iff_forall_not_mem]
    intro x hx
    rw [races, List.mem_flatMap] at hx
    obtain ⟨a, _, hx2⟩ := hx
    rw [List.mem_filterMap] at hx2
    obtain ⟨b, _, hfb⟩ := hx2
    by_cases hcond : (a < b ∧ conflicting buf a b = true ∧
        findPath buf (SNode.mem a) (SNode.mem b) = false ∧
        findPath buf (SNode.mem b) (SNode.mem a) = false)
    · obtain ⟨hab, hconf, hp1, hp2⟩ := hcond
      simp only [conflicting, Bool.and_eq_true] at hconf
      obtain ⟨⟨⟨hacta, hactb⟩, _⟩, _⟩ := hconf
      rcases honly a hacta with ha1 | ha1 <;> rcases honly b hactb with hb1 | hb1
      · subst ha1; subst hb1
        exact absurd hab (lt_irrefl _)
      · subst ha1; subst hb1
        rw [hfp] at hp1
        cases hp1
      · subst ha1; subst hb1
        exact absurd (lt_trans hab hik) (lt_irrefl _)
      · subst ha1; subst hb1
        exact absurd hab (lt_irrefl _)
    · rw [if_neg hcond] at hfb
      cases hfb
  · intro hnb
    have hblockF : ∀ j m, i < j → isBarrierAt buf j = true →
        maskHasStage (srcMaskAt buf j) S1 = true → j < m →
        isActionAt buf m = true →
        maskHasStage (dstMaskAt buf j) (stageAt buf m) = true → False := by
      intro j m hij hbar hsrcb hjm hactm hdstb
      rcases honly m hactm with hm | hm
      · subst hm
        exact absurd (lt_trans hij hjm) (lt_irrefl _)
      · subst hm
        cases hjc : buf.get? j with
        | none =>
          unfold isBarrierAt at hbar
          rw [hjc] at hbar
          exact Bool.noConfusion hbar
        | some c =>
          cases c with
          | action w s r =>
            unfold isBarrierAt at hbar
            rw [hjc] at hbar
            exact Bool.noConfusion hbar
          | barrier src dst =>
            apply hnb
            refine ⟨j, src, dst, hjc, hij, hjm, ?_, ?_⟩
            · have hs : srcMaskAt buf j = src := by unfold srcMaskAt; rw [hjc]
              rw [hs] at hsrcb
              exact hsrcb
            · have hd : dstMaskAt buf j = dst := by unfold dstMaskAt; rw [hjc]
              rw [hd, hstagek] at hdstb
              exact hdstb
    have hstepF := reachClosed_step buf i S1 hstagei hblockF
    have hp1 : findPath buf (SNode.mem i) (SNode.mem k) = false :=
      findPath_eq_false_of_closed hstepF
        (show ((i == i) : Bool) = true by simp)
        (show ((k == i) : Bool) = false by
          rw [beq_eq_false_iff_ne]
          exact Nat.ne_of_gt hik)
    have hblockB : ∀ j m, k < j → isBarrierAt buf j = true →
        maskHasStage (srcMaskAt buf j) S2 = true → j < m →
        isActionAt buf m = true →
        maskHasStage (dstMaskAt buf j) (stageAt buf m) = true → False := by
      intro j m hkj hbar hsrcb hjm hactm hdstb
      rcases honly m hactm with hm | hm
      · subst hm
        exact absurd (lt_trans hik (lt_trans hkj hjm)) (lt_irrefl _)
      · subst hm
        exact absurd (lt_trans hkj hjm) (lt_irrefl _)
    have hstepB := reachClosed_step buf k S2 hstagek hblockB
    have hp2 : findPath buf (SNode.mem k) (SNode.mem i) = false :=
      findPath_eq_false_of_closed hstepB
        (show ((k == k) : Bool) = true by simp)
        (show ((i == k) : Bool) = false by
          rw [beq_eq_false_iff_ne]
          exact Nat.ne_of_lt hik)
    refine ⟨hp1, hp2, ?_⟩
    rw [races, List.mem_flatMap]
    refine ⟨i, List.mem_range.mpr hilen, ?_⟩
    rw [List.mem_filterMap]
    refine ⟨k, List.mem_range.mpr hklen, ?_⟩
    have hconf : conflicting buf i k = true := by
      simp [conflicting, hacti, hactk, hregi, hregk, hwi]
    rw [if_pos ⟨hik, hconf, hp1, hp2⟩, hregi]

/-- Witness for barrier_soundness: a three-command buffer - a write of
region 7 at stage 2, a barrier with source mask 4 (bit 2) and destination
mask 32 (bit 5), then a read of region 7 at stage 5 - in which the barrier
covers both stages, so the checker finds the path and reports no race. -/
theorem barrier_soundness_witness :
    findPath [SCmd.action true 2 7, SCmd.barrier 4 32, SCmd.action false 5 7]
      (SNode.mem 0) (SNode.mem 2) = true ∧
    races [SCmd.action true 2 7, SCmd.barrier 4 32,
      SCmd.action false 5 7] = [] := by
  have honly : ∀ m, isActionAt [SCmd.action true 2 7, SCmd.barrier 4 32,
      SCmd.action false 5 7] m = true → m = 0 ∨ m = 2 := by
    intro m hm
    rcases m with _ | _ | _ | n
    · exact Or.inl rfl
    · exact absurd hm (by decide)
    · exact Or.inr rfl
    · have hz : isActionAt [SCmd.action true 2 7, SCmd.barrier 4 32,
          SCmd.action false 5 7] (n + 3) = false := rfl
      rw [hz] at hm
      exact Bool.noConfusion hm
  exact (barrier_soundness [SCmd.action true 2 7, SCmd.barrier 4 32,
      SCmd.action false 5 7] 0 2 2 5 7 rfl rfl (by decide) honly).1
    ⟨1, 4, 32, rfl, by decide, by decide, by decide, by decide⟩

end SpecModel
